import Mathlib

/-!
# Verification of the terrain tile / memory pool / renderer core of vulkan-forge

Shallow embedding of the C++ sources under `src/cpp` (terrain_tile.hpp/.cpp,
terrain_memory_pool.cpp, terrain_renderer.cpp) and proofs about the claims of
the specification.

Modelling conventions:
* machine integers are modelled as `ℤ`/`ℕ` with explicit wrap-around
  (`% 2^32`) where the width matters;
* C++ `int` division truncates toward zero; it is modelled by `cppDiv`;
* `float` arithmetic is modelled by exact rational arithmetic `ℚ`
  (sign tests and orderings, which is all the claims use, agree);
* calls into external layers (Vulkan, VMA) are modelled by explicit oracle
  parameters carrying the result the external call returns;
* mutexes and threads are ignored: each operation is modelled as a pure
  sequential state transformer, which is the intended semantics of the
  guarded code regions.
-/

namespace VF

/-- Result codes used by the embedded functions (subset of `VkResult`). -/
inductive VkR where
  | success
  | errorInitializationFailed
  | errorOutOfDeviceMemory
  | errorFeatureNotPresent
  | errorValidationFailed
  | timeout
  deriving DecidableEq, Repr

/-- C++ signed integer division: truncation toward zero (for a positive
divisor this is floor division for nonnegative dividends and negated floor
division of the negation otherwise). -/
def cppDiv (a b : ℤ) : ℤ :=
  if 0 ≤ a then a / b else -((-a) / b)

/-- Wrap an integer into the two's-complement `int32_t` range
`[-2^31, 2^31)`. -/
def wrap32 (n : ℤ) : ℤ :=
  (n + 2 ^ 31) % 2 ^ 32 - 2 ^ 31

theorem wrap32_eq_self {n : ℤ} (hlo : -(2 ^ 31) ≤ n) (hhi : n < 2 ^ 31) :
    wrap32 n = n := by
  unfold wrap32
  have h1 : 0 ≤ n + 2 ^ 31 := by omega
  have h2 : n + 2 ^ 31 < 2 ^ 32 := by omega
  rw [Int.emod_eq_of_lt h1 h2]
  omega

/-- Unsigned `uint32_t` arithmetic: wrap a natural number into `[0, 2^32)`. -/
def wrapU32 (n : ℕ) : ℕ := n % 2 ^ 32

/-- Embeds `TileCoordinate` from terrain_tile.hpp: `(x : int32_t, y : int32_t,
level : uint32_t, datasetId : std::string)`. -/
structure TileCoordinate where
  x : ℤ
  y : ℤ
  level : ℕ
  datasetId : String
  deriving DecidableEq, Repr

namespace TileCoordinate

/-- Embeds `getParent`: `TileCoordinate(x / 2, y / 2, level + 1, datasetId)`;
`x / 2` is C++ truncating division and `level + 1` is `uint32_t` addition. -/
def getParent (c : TileCoordinate) : TileCoordinate :=
  ⟨cppDiv c.x 2, cppDiv c.y 2, wrapU32 (c.level + 1), c.datasetId⟩

/-- Embeds `getChildren`: empty at `level == 0`, otherwise the four coordinates
`(2x, 2y)`, `(2x+1, 2y)`, `(2x, 2y+1)`, `(2x+1, 2y+1)` at `level - 1`.
The `int32_t` multiplications wrap. -/
def getChildren (c : TileCoordinate) : List TileCoordinate :=
  if c.level = 0 then []
  else
    [⟨wrap32 (2 * c.x),     wrap32 (2 * c.y),     c.level - 1, c.datasetId⟩,
     ⟨wrap32 (2 * c.x + 1), wrap32 (2 * c.y),     c.level - 1, c.datasetId⟩,
     ⟨wrap32 (2 * c.x),     wrap32 (2 * c.y + 1), c.level - 1, c.datasetId⟩,
     ⟨wrap32 (2 * c.x + 1), wrap32 (2 * c.y + 1), c.level - 1, c.datasetId⟩]

/-- Validity range of `int32_t`. -/
def inRange (n : ℤ) : Prop := -(2 ^ 31) ≤ n ∧ n < 2 ^ 31

instance (n : ℤ) : Decidable (inRange n) := by
  unfold inRange; infer_instance

end TileCoordinate

section ParentChild

open TileCoordinate

theorem cppDiv_two_bound {a : ℤ} (hlo : -(2 ^ 31) ≤ a) (hhi : a < 2 ^ 31) :
    -(2 ^ 30) ≤ cppDiv a 2 ∧ cppDiv a 2 ≤ 2 ^ 30 := by
  unfold cppDiv
  split <;> omega

theorem cppDiv_two_even {a : ℤ} (h : 2 ∣ a) : 2 * cppDiv a 2 = a := by
  obtain ⟨k, rfl⟩ := h
  unfold cppDiv
  rcases le_or_lt 0 (2 * k) with hk | hk
  · simp only [if_pos hk]
    omega
  · simp only [if_neg (not_le.mpr hk)]
    have : -(2 * k) = 2 * (-k) := by ring
    rw [this]
    omega

theorem cppDiv_two_nonneg {a : ℤ} (h : 0 ≤ a) :
    a = 2 * cppDiv a 2 ∨ a = 2 * cppDiv a 2 + 1 := by
  unfold cppDiv
  rw [if_pos h]
  omega

theorem cppDiv_two_recover {a : ℤ} (h : 0 ≤ a ∨ 2 ∣ a) :
    a = 2 * cppDiv a 2 ∨ a = 2 * cppDiv a 2 + 1 := by
  rcases h with h | h
  · exact cppDiv_two_nonneg h
  · exact Or.inl (cppDiv_two_even h).symm

theorem cppDiv_two_lt {a : ℤ} (hhi : a < 2 ^ 31) : cppDiv a 2 ≤ 2 ^ 30 - 1 := by
  unfold cppDiv
  split <;> omega

theorem cppDiv_two_ge {a : ℤ} (hlo : -(2 ^ 31) ≤ a) : -(2 ^ 30) ≤ cppDiv a 2 := by
  unfold cppDiv
  split <;> omega

/-- C5 (amended): for an in-range `int32` coordinate whose `x` and `y` are
each nonnegative or even and whose level does not overflow `uint32`,
`c.getParent().getChildren()` contains a coordinate equal to `c`. -/
theorem parent_children_roundtrip (x y : ℤ) (level : ℕ) (ds : String)
    (hx : inRange x) (hy : inRange y) (hlevel : level + 1 < 2 ^ 32)
    (hxe : 0 ≤ x ∨ 2 ∣ x) (hye : 0 ≤ y ∨ 2 ∣ y) :
    (⟨x, y, level, ds⟩ : TileCoordinate) ∈
      (TileCoordinate.getParent ⟨x, y, level, ds⟩).getChildren := by
  obtain ⟨hx1, hx2⟩ := hx
  obtain ⟨hy1, hy2⟩ := hy
  have hpx1 := cppDiv_two_ge hx1
  have hpx2 := cppDiv_two_lt hx2
  have hpy1 := cppDiv_two_ge hy1
  have hpy2 := cppDiv_two_lt hy2
  have hxr := cppDiv_two_recover hxe
  have hyr := cppDiv_two_recover hye
  have hwx0 : wrap32 (2 * cppDiv x 2) = 2 * cppDiv x 2 :=
    wrap32_eq_self (by omega) (by omega)
  have hwx1 : wrap32 (2 * cppDiv x 2 + 1) = 2 * cppDiv x 2 + 1 :=
    wrap32_eq_self (by omega) (by omega)
  have hwy0 : wrap32 (2 * cppDiv y 2) = 2 * cppDiv y 2 :=
    wrap32_eq_self (by omega) (by omega)
  have hwy1 : wrap32 (2 * cppDiv y 2 + 1) = 2 * cppDiv y 2 + 1 :=
    wrap32_eq_self (by omega) (by omega)
  unfold TileCoordinate.getParent TileCoordinate.getChildren
  simp only [wrapU32, Nat.mod_eq_of_lt hlevel]
  rw [if_neg (by omega)]
  simp only [List.mem_cons, Nat.add_sub_cancel]
  rcases hxr with hxr | hxr <;> rcases hyr with hyr | hyr
  · exact Or.inl (by rw [hwx0, hwy0, ← hxr, ← hyr])
  · exact Or.inr (Or.inr (Or.inl (by rw [hwx0, hwy1, ← hxr, ← hyr])))
  · exact Or.inr (Or.inl (by rw [hwx1, hwy0, ← hxr, ← hyr]))
  · exact Or.inr (Or.inr (Or.inr (Or.inl (by rw [hwx1, hwy1, ← hxr, ← hyr]))))

/-- C5 witness: the amended roundtrip at `(6, 7)`, level `0`. -/
theorem parent_children_roundtrip_witness :
    (⟨6, 7, 0, "d"⟩ : TileCoordinate) ∈
      (TileCoordinate.getParent ⟨6, 7, 0, "d"⟩).getChildren :=
  parent_children_roundtrip 6 7 0 "d" (by decide) (by decide) (by norm_num)
    (Or.inl (by norm_num)) (Or.inl (by norm_num))

/-- C5 counterexample: the claim fails as stated.  At
`c = (0, 0, 2^32 - 1, "d")` (even `x`/`y`, so no rounding is involved)
`getParent` wraps the level to `0` and `getChildren` returns no
coordinates at all; and at `c = (-3, 1, 0, "d")` truncating division makes
the roundtrip miss `c` entirely. -/
theorem parent_children_roundtrip_cex :
    ¬ ((⟨0, 0, 2 ^ 32 - 1, "d"⟩ : TileCoordinate) ∈
        (TileCoordinate.getParent ⟨0, 0, 2 ^ 32 - 1, "d"⟩).getChildren) ∧
    ¬ ((⟨-3, 1, 0, "d"⟩ : TileCoordinate) ∈
        (TileCoordinate.getParent ⟨-3, 1, 0, "d"⟩).getChildren) := by
  constructor
  · intro h
    rw [show TileCoordinate.getParent ⟨0, 0, 2 ^ 32 - 1, "d"⟩
          = ⟨0, 0, 0, "d"⟩ by decide] at h
    simp [TileCoordinate.getChildren] at h
  · decide

end ParentChild

/-! ## Tile state machine (terrain_tile.cpp) -/

/-- Tile loading and rendering states (`enum class TileState`). -/
inductive TileState where
  | empty
  | loading
  | loaded
  | uploading
  | ready
  | error
  | evicted
  deriving DecidableEq, Repr

/-- Embeds `TileCPUData`; the vectors are tracked by their element counts,
which is all `getMemoryUsage` and the emptiness checks read. -/
structure TileCPUData where
  heightElems : ℕ
  normalElems : ℕ
  textureBytes : ℕ
  width : ℕ
  height : ℕ
  deriving DecidableEq, Repr

namespace TileCPUData

/-- Bytes used: `heightData.size()*sizeof(float) + normalData.size()*sizeof(float)
+ textureData.size()*sizeof(uint8_t)`. -/
def getMemoryUsage (d : TileCPUData) : ℕ :=
  d.heightElems * 4 + d.normalElems * 4 + d.textureBytes

/-- Embeds `clear()`: releases every CPU array. -/
def clear (_ : TileCPUData) : TileCPUData := ⟨0, 0, 0, 0, 0⟩

end TileCPUData

/-- Embeds `TileGPUResources`; Vulkan handles are tracked by validity flags
(`handle != VK_NULL_HANDLE`). -/
structure TileGPUResources where
  vertexBufferValid : Bool
  heightTextureValid : Bool
  vertexCount : ℕ
  totalMemoryUsage : ℕ
  deriving DecidableEq, Repr

namespace TileGPUResources

/-- Embeds `isValid()`: vertex buffer and height texture both present. -/
def isValid (g : TileGPUResources) : Bool :=
  g.vertexBufferValid && g.heightTextureValid

/-- Embeds `destroy()`: every handle nulled, `totalMemoryUsage = 0`. -/
def destroy (_ : TileGPUResources) : TileGPUResources := ⟨false, false, 0, 0⟩

end TileGPUResources

/-- Embeds `TerrainTile` (the fields the verified operations touch). -/
structure TerrainTile where
  coordinate : TileCoordinate
  state : TileState
  cpuData : TileCPUData
  gpuResources : TileGPUResources
  priority : ℚ
  framesSinceAccess : ℕ
  errorMessage : String
  deriving DecidableEq, Repr

/-- Results of the external Vulkan/VMA calls made during `uploadToGPU`,
passed in as an oracle: the embedded code branches on them exactly as the
source branches on the corresponding `VkResult`s. -/
structure GpuOracle where
  vbCreate : VkR
  vbUpload : VkR
  stagingCreate : VkR
  imageCreate : VkR
  memAlloc : VkR
  viewCreate : VkR
  imageMemSize : ℕ
  deriving DecidableEq, Repr

namespace TerrainTile

/-- Tile construction (`TerrainTile::TerrainTile`): state `Empty`, no data. -/
def new (c : TileCoordinate) : TerrainTile :=
  ⟨c, .empty, ⟨0, 0, 0, 0, 0⟩, ⟨false, false, 0, 0⟩, 0, 0, ""⟩

/-- Embeds `setState`. -/
def setState (t : TerrainTile) (s : TileState) : TerrainTile :=
  { t with state := s }

/-- Embeds `setError`: records the message and moves to `Error`. -/
def setError (t : TerrainTile) (msg : String) : TerrainTile :=
  { t with errorMessage := msg, state := .error }

/-- Embeds `loadFromCache`: always `VK_ERROR_FEATURE_NOT_PRESENT` (forces
disk loading). -/
def loadFromCache (t : TerrainTile) : TerrainTile × VkR :=
  (t, .errorFeatureNotPresent)

/-- Embeds `loadFromDisk`: generates a synthetic `DEFAULT_TILE_SIZE²`
(512×512) height grid and always returns `VK_SUCCESS`. -/
def loadFromDisk (t : TerrainTile) : TerrainTile × VkR :=
  ({ t with cpuData := ⟨512 * 512, t.cpuData.normalElems, t.cpuData.textureBytes,
      512, 512⟩ }, .success)

/-- Embeds `loadData`: guarded on `Empty`; cache miss falls through to the
disk path. -/
def loadData (t : TerrainTile) : TerrainTile × VkR :=
  if t.state ≠ .empty then (t, .errorInitializationFailed)
  else
    let t1 := t.setState .loading
    let (t2, rc) := t1.loadFromCache
    if rc = .success then (t2.setState .loaded, .success)
    else
      let (t3, rd) := t2.loadFromDisk
      if rd ≠ .success then (t3.setError "Failed to load tile data from disk", rd)
      else (t3.setState .loaded, .success)

/-- Embeds `createVertexBuffer`: fails on empty height data, then creates and
fills the 64×64 base-mesh vertex buffer (4096 vertices × 32 bytes). -/
def createVertexBuffer (t : TerrainTile) (o : GpuOracle) : TerrainTile × VkR :=
  if t.cpuData.heightElems = 0 then (t, .errorInitializationFailed)
  else if o.vbCreate ≠ .success then (t, o.vbCreate)
  else
    let t1 := { t with gpuResources := { t.gpuResources with vertexBufferValid := true } }
    if o.vbUpload ≠ .success then (t1, o.vbUpload)
    else ({ t1 with gpuResources := { t1.gpuResources with
             vertexCount := 64 * 64,
             totalMemoryUsage := t1.gpuResources.totalMemoryUsage + 64 * 64 * 32 } },
          .success)

/-- Embeds `createHeightTexture`: staging buffer, image, memory, view; on
view-creation success the image memory size is added to the GPU usage. -/
def createHeightTexture (t : TerrainTile) (o : GpuOracle) : TerrainTile × VkR :=
  if t.cpuData.heightElems = 0 then (t, .errorInitializationFailed)
  else if o.stagingCreate ≠ .success then (t, o.stagingCreate)
  else if o.imageCreate ≠ .success then (t, o.imageCreate)
  else
    let t1 := { t with gpuResources := { t.gpuResources with heightTextureValid := true } }
    if o.memAlloc ≠ .success then (t1, o.memAlloc)
    else if o.viewCreate ≠ .success then (t1, o.viewCreate)
    else ({ t1 with gpuResources := { t1.gpuResources with
             totalMemoryUsage := t1.gpuResources.totalMemoryUsage + o.imageMemSize } },
          .success)

/-- Embeds `createNormalTexture` (placeholder in the source: `VK_SUCCESS`). -/
def createNormalTexture (t : TerrainTile) : TerrainTile × VkR := (t, .success)

/-- Embeds `createDescriptorSet` (handled by the renderer: `VK_SUCCESS`). -/
def createDescriptorSet (t : TerrainTile) : TerrainTile × VkR := (t, .success)

/-- Embeds `uploadToGPU`: guarded on `Loaded`; runs the resource-creation
steps and moves to `Ready`, or to `Error` with a message on any failure. -/
def uploadToGPU (t : TerrainTile) (o : GpuOracle) : TerrainTile × VkR :=
  if t.state ≠ .loaded then (t, .errorInitializationFailed)
  else
    let t1 := t.setState .uploading
    let (t2, r1) := t1.createVertexBuffer o
    if r1 ≠ .success then (t2.setError "Failed to create vertex buffer", r1)
    else
      let (t3, r2) := t2.createHeightTexture o
      if r2 ≠ .success then (t3.setError "Failed to create height texture", r2)
      else
        let (t4, _) := if t3.cpuData.normalElems ≠ 0
          then t3.createNormalTexture else (t3, .success)
        let (t5, _) := t4.createDescriptorSet
        (t5.setState .ready, .success)

/-- Embeds `unloadFromGPU`: destroy GPU resources; `Ready` drops back to
`Loaded`. -/
def unloadFromGPU (t : TerrainTile) : TerrainTile :=
  let t1 := { t with gpuResources := t.gpuResources.destroy }
  if t1.state = .ready then t1.setState .loaded else t1

/-- Embeds `evictFromMemory`: unload GPU, clear CPU data, and move every
non-`Error` state to `Evicted`.  (The source re-locks the tile mutex inside
`unloadFromGPU`; the sequential semantics modelled here is what the guarded
region computes.) -/
def evictFromMemory (t : TerrainTile) : TerrainTile :=
  let t1 := t.unloadFromGPU
  let t2 := { t1 with cpuData := t1.cpuData.clear }
  if t2.state ≠ .error then t2.setState .evicted else t2

/-- Embeds `render`: fails without valid GPU resources, otherwise marks the
tile accessed and records the draw. -/
def render (t : TerrainTile) : TerrainTile × VkR :=
  if ¬ t.gpuResources.isValid then (t, .errorInitializationFailed)
  else ({ t with framesSinceAccess := 0 }, .success)

/-- Embeds `getMemoryUsage`. -/
def getMemoryUsage (t : TerrainTile) : ℕ := t.cpuData.getMemoryUsage

/-- Embeds `incrementFrameCounter`. -/
def incrementFrameCounter (t : TerrainTile) : TerrainTile :=
  { t with framesSinceAccess := t.framesSinceAccess + 1 }

/-- Embeds `markAccessed`. -/
def markAccessed (t : TerrainTile) : TerrainTile :=
  { t with framesSinceAccess := 0 }

end TerrainTile

/-! ## Sorting by a key, descending

Models the `std::sort` calls with greater-than comparators
(`getLRUTiles` sorts by `framesSinceAccess` descending,
`getHighPriorityLoadingQueue` by priority descending). -/

section SortDesc

variable {α : Type} {β : Type} [LinearOrder β]

/-- Insert `a` in front of the first element with a strictly smaller key. -/
def insertKeyDesc (key : α → β) (a : α) : List α → List α
  | [] => [a]
  | b :: l => if key b < key a then a :: b :: l else b :: insertKeyDesc key a l

/-- Sort a list so that keys are nonincreasing. -/
def sortKeyDesc (key : α → β) : List α → List α
  | [] => []
  | a :: l => insertKeyDesc key a (sortKeyDesc key l)

theorem insertKeyDesc_perm (key : α → β) (a : α) (l : List α) :
    List.Perm (insertKeyDesc key a l) (a :: l) := by
  induction l with
  | nil => rfl
  | cons b l ih =>
    unfold insertKeyDesc
    split
    · rfl
    · exact ((ih.cons b).trans (List.Perm.swap a b l))

theorem sortKeyDesc_perm (key : α → β) (l : List α) :
    List.Perm (sortKeyDesc key l) l := by
  induction l with
  | nil => rfl
  | cons a l ih =>
    exact (insertKeyDesc_perm key a (sortKeyDesc key l)).trans (ih.cons a)

theorem insertKeyDesc_pairwise (key : α → β) (a : α) {l : List α}
    (h : l.Pairwise (fun x y => key y ≤ key x)) :
    (insertKeyDesc key a l).Pairwise (fun x y => key y ≤ key x) := by
  induction l with
  | nil => simp [insertKeyDesc]
  | cons b l ih =>
    rw [List.pairwise_cons] at h
    unfold insertKeyDesc
    split
    · rename_i hba
      refine List.pairwise_cons.mpr ⟨?_, List.pairwise_cons.mpr h⟩
      intro x hx
      rcases List.mem_cons.mp hx with rfl | hx
      · exact le_of_lt hba
      · exact (h.1 x hx).trans (le_of_lt hba)
    · rename_i hba
      refine List.pairwise_cons.mpr ⟨?_, ih h.2⟩
      intro x hx
      have hx' := (insertKeyDesc_perm key a l).mem_iff.mp hx
      rcases List.mem_cons.mp hx' with rfl | hx'
      · exact not_lt.mp hba
      · exact h.1 x hx'

theorem sortKeyDesc_pairwise (key : α → β) (l : List α) :
    (sortKeyDesc key l).Pairwise (fun x y => key y ≤ key x) := by
  induction l with
  | nil => simp [sortKeyDesc]
  | cons a l ih => exact insertKeyDesc_pairwise key a ih

theorem sortKeyDesc_length (key : α → β) (l : List α) :
    (sortKeyDesc key l).length = l.length :=
  (sortKeyDesc_perm key l).length_eq

/-- Every element of the front segment of a descending-sorted list has a key
at least as large as every element behind the cut. -/
theorem sortKeyDesc_take_drop (key : α → β) (l : List α) (k : ℕ) {a b : α}
    (ha : a ∈ (sortKeyDesc key l).take k) (hb : b ∈ (sortKeyDesc key l).drop k) :
    key b ≤ key a := by
  have hsplit := List.take_append_drop k (sortKeyDesc key l)
  have hp := sortKeyDesc_pairwise key l
  rw [← hsplit] at hp
  exact (List.pairwise_append.mp hp).2.2 a ha b hb

end SortDesc

/-! ## Priority and the state-machine guards -/

/-- Unsigned 32-bit subtraction `a - b` (two's-complement wrap-around). -/
def u32sub (a b : ℕ) : ℕ := (wrapU32 a + 2 ^ 32 - wrapU32 b) % 2 ^ 32

theorem u32sub_of_le {a b : ℕ} (hba : b ≤ a) (ha : a < 2 ^ 32) :
    u32sub a b = a - b := by
  simp only [u32sub, wrapU32]
  omega

namespace TerrainTile

/-- Embeds `updatePriority`: `1000/(dist+1) + (8 - level)*10 +
max(0, 100 - framesSinceAccess)`.  `dist` is the Euclidean camera distance
computed by `getDistanceToCamera`, passed in as a parameter; `8 - level` is
evaluated in `uint32_t` arithmetic exactly as in the source. -/
def updatePriority (t : TerrainTile) (dist : ℚ) : TerrainTile :=
  let basePriority : ℚ := 1000 / (dist + 1)
  let lodBonus : ℚ := (u32sub 8 t.coordinate.level : ℚ) * 10
  let accessBonus : ℚ := max 0 (100 - (t.framesSinceAccess : ℚ))
  { t with priority := basePriority + lodBonus + accessBonus }

end TerrainTile

/-- C1: `loadData` fails and leaves the tile unchanged unless the state is
`Empty`; `uploadToGPU` fails and leaves the tile unchanged unless the state
is `Loaded`; `evictFromMemory` sends every non-`Error` state to `Evicted`
and leaves `Error` as `Error`. -/
theorem tile_transition_guards (t : TerrainTile) :
    (t.state ≠ .empty → t.loadData = (t, .errorInitializationFailed)) ∧
    (∀ o : GpuOracle, t.state ≠ .loaded → t.uploadToGPU o = (t, .errorInitializationFailed)) ∧
    (t.state ≠ .error → t.evictFromMemory.state = .evicted) ∧
    (t.state = .error → t.evictFromMemory.state = .error) := by
  refine ⟨?_, ?_, ?_, ?_⟩
  · intro h
    simp [TerrainTile.loadData, h]
  · intro o h
    simp [TerrainTile.uploadToGPU, h]
  · intro h
    by_cases hr : t.state = .ready <;>
      simp [TerrainTile.evictFromMemory, TerrainTile.unloadFromGPU,
        TerrainTile.setState, hr, h]
  · intro h
    simp [TerrainTile.evictFromMemory, TerrainTile.unloadFromGPU,
      TerrainTile.setState, h]

/-- C1 witness: the guards evaluated on a `Ready` tile and on an `Error`
tile. -/
theorem tile_transition_guards_witness :
    (((TerrainTile.new ⟨0, 0, 0, "d"⟩).setState .ready).loadData
      = (((TerrainTile.new ⟨0, 0, 0, "d"⟩).setState .ready), .errorInitializationFailed)) ∧
    (((TerrainTile.new ⟨0, 0, 0, "d"⟩).setState .ready).uploadToGPU
        ⟨.success, .success, .success, .success, .success, .success, 0⟩
      = (((TerrainTile.new ⟨0, 0, 0, "d"⟩).setState .ready), .errorInitializationFailed)) ∧
    ((((TerrainTile.new ⟨0, 0, 0, "d"⟩).setState .ready).evictFromMemory).state = .evicted) ∧
    ((((TerrainTile.new ⟨0, 0, 0, "d"⟩).setState .error).evictFromMemory).state = .error) :=
  ⟨(tile_transition_guards ((TerrainTile.new ⟨0, 0, 0, "d"⟩).setState .ready)).1 (by decide),
   (tile_transition_guards ((TerrainTile.new ⟨0, 0, 0, "d"⟩).setState .ready)).2.1
     ⟨.success, .success, .success, .success, .success, .success, 0⟩ (by decide),
   (tile_transition_guards ((TerrainTile.new ⟨0, 0, 0, "d"⟩).setState .ready)).2.2.1 (by decide),
   (tile_transition_guards ((TerrainTile.new ⟨0, 0, 0, "d"⟩).setState .error)).2.2.2 (by decide)⟩

/-- C7 (amended): for two tiles at the same camera distance with the same
`framesSinceAccess` and levels both at most 8, the lower-level tile gets a
strictly higher priority from `updatePriority`. -/
theorem priority_lod_ordering (t1 t2 : TerrainTile) (d : ℚ)
    (hf : t1.framesSinceAccess = t2.framesSinceAccess)
    (hlt : t1.coordinate.level < t2.coordinate.level)
    (hle : t2.coordinate.level ≤ 8) :
    (t2.updatePriority d).priority < (t1.updatePriority d).priority := by
  unfold TerrainTile.updatePriority
  simp only [hf]
  rw [u32sub_of_le (le_trans hlt.le hle) (by norm_num), u32sub_of_le hle (by norm_num)]
  have hsub : (8 - t2.coordinate.level) < (8 - t1.coordinate.level) := by omega
  have hq : ((8 - t2.coordinate.level : ℕ) : ℚ) < ((8 - t1.coordinate.level : ℕ) : ℚ) := by
    exact_mod_cast hsub
  have := mul_lt_mul_of_pos_right hq (by norm_num : (0 : ℚ) < 10)
  linarith

/-- C7 witness: levels 3 and 5 at distance 7, both never accessed. -/
theorem priority_lod_ordering_witness :
    (((TerrainTile.new ⟨0, 0, 5, "d"⟩).updatePriority 7).priority <
      ((TerrainTile.new ⟨0, 0, 3, "d"⟩).updatePriority 7).priority) :=
  priority_lod_ordering (TerrainTile.new ⟨0, 0, 3, "d"⟩)
    (TerrainTile.new ⟨0, 0, 5, "d"⟩) 7 rfl (by decide) (by decide)

/-- C7 counterexample: at levels 8 and 9 (equal distance 0, equal access
counters) the unsigned evaluation of `8 - level` wraps, so the lower-level
tile gets the strictly *lower* priority, refuting the claim for arbitrary
`uint32` level values. -/
theorem priority_lod_ordering_cex :
    ((TerrainTile.new ⟨0, 0, 8, "d"⟩).updatePriority 0).priority <
      ((TerrainTile.new ⟨0, 0, 9, "d"⟩).updatePriority 0).priority := by
  norm_num [TerrainTile.updatePriority, TerrainTile.new, u32sub, wrapU32]

/-! ## Tile manager (terrain_tile.cpp, `TerrainTileManager`) -/

/-- Embeds `TerrainTileManager`: the coordinate-keyed tile map (an
association list with distinct keys models the `unordered_map`) and the
configured limits. -/
structure TerrainTileManager where
  tiles : List (TileCoordinate × TerrainTile)
  maxTiles : ℕ
  maxMemoryUsage : ℕ
  deriving DecidableEq, Repr

namespace TerrainTileManager

/-- Well-formedness of the map representation: keys are distinct (an
`unordered_map` holds at most one entry per key). -/
def WF (m : TerrainTileManager) : Prop := (m.tiles.map Prod.fst).Nodup

instance (m : TerrainTileManager) : Decidable m.WF := by
  unfold WF
  infer_instance

/-- Construction: empty map with the given limits (`m_maxTiles`,
`m_maxMemoryUsage`). -/
def init (maxTiles maxMemoryUsage : ℕ) : TerrainTileManager :=
  ⟨[], maxTiles, maxMemoryUsage⟩

/-- Embeds `getTile`: pure lookup. -/
def getTile (m : TerrainTileManager) (c : TileCoordinate) : Option TerrainTile :=
  (m.tiles.find? (fun p => decide (p.1 = c))).map Prod.snd

/-- Erasing one key from the map (`m_tiles.erase(coordinate)`). -/
def eraseKey (ts : List (TileCoordinate × TerrainTile)) (c : TileCoordinate) :
    List (TileCoordinate × TerrainTile) :=
  ts.filter (fun p => decide (p.1 ≠ c))

/-- Erasing a set of keys from the map (the eviction loop of
`enforceLimits`). -/
def removeKeys (ts : List (TileCoordinate × TerrainTile))
    (cs : List TileCoordinate) : List (TileCoordinate × TerrainTile) :=
  ts.filter (fun p => decide (p.1 ∉ cs))

/-- Embeds `getLRUTiles`: all tiles sorted by `framesSinceAccess`
descending, first `count` returned. -/
def getLRUTiles (m : TerrainTileManager) (count : ℕ) :
    List (TileCoordinate × TerrainTile) :=
  (sortKeyDesc (fun p => p.2.framesSinceAccess) m.tiles).take count

/-- Embeds `enforceLimits`: nothing below `m_maxTiles`, otherwise the
`size - maxTiles` least-recently-used tiles are erased from the map. -/
def enforceLimits (m : TerrainTileManager) : TerrainTileManager :=
  if m.tiles.length ≤ m.maxTiles then m
  else
    { m with tiles := (removeKeys m.tiles ((m.getLRUTiles (m.tiles.length - m.maxTiles)).map Prod.fst)) }

/-- Embeds `createTile`: return the existing tile, or insert a fresh one and
immediately enforce the limits. -/
def createTile (m : TerrainTileManager) (c : TileCoordinate) :
    TerrainTileManager × TerrainTile :=
  match m.getTile c with
  | some t => (m, t)
  | none =>
    let t := TerrainTile.new c
    (enforceLimits { m with tiles := m.tiles ++ [(c, t)] }, t)

/-- Embeds `removeTile`. -/
def removeTile (m : TerrainTileManager) (c : TileCoordinate) : TerrainTileManager :=
  match m.getTile c with
  | some _ => { m with tiles := eraseKey m.tiles c }
  | none => m

/-- Embeds `getTotalMemoryUsage`: sum of per-tile CPU memory usage. -/
def getTotalMemoryUsage (m : TerrainTileManager) : ℕ :=
  (m.tiles.map (fun p => p.2.getMemoryUsage)).sum

/-- Embeds `getHighPriorityLoadingQueue`: coordinates of `Empty`/`Evicted`
tiles, ranked by priority descending, truncated to `maxCount`. -/
def getHighPriorityLoadingQueue (m : TerrainTileManager) (maxCount : ℕ) :
    List TileCoordinate :=
  ((sortKeyDesc (fun q => q.2)
      ((m.tiles.filter (fun p => decide (p.2.state = .empty ∨ p.2.state = .evicted))).map
        (fun p => (p.1, p.2.priority)))).take maxCount).map Prod.fst

/-- A caller operating on the shared tile object held in the map (the map
stores `shared_ptr`s; loaders and the renderer mutate tiles in place). -/
def withTile (m : TerrainTileManager) (c : TileCoordinate)
    (f : TerrainTile → TerrainTile) : TerrainTileManager :=
  { m with tiles := m.tiles.map (fun p => if p.1 = c then (p.1, f p.2) else p) }

end TerrainTileManager

/-! ### Limit enforcement: counting and LRU lemmas -/

namespace TerrainTileManager

theorem keys_inj {ts : List (TileCoordinate × TerrainTile)}
    (h : (ts.map Prod.fst).Nodup) {p q : TileCoordinate × TerrainTile}
    (hp : p ∈ ts) (hq : q ∈ ts) (hkey : p.1 = q.1) : p = q :=
  List.inj_on_of_nodup_map h hp hq hkey

theorem keys_filter_not_mem_length {l R : List TileCoordinate}
    (hl : l.Nodup) (hR : R.Nodup) (hsub : ∀ r ∈ R, r ∈ l) :
    (l.filter (fun k => decide (k ∉ R))).length = l.length - R.length := by
  induction R generalizing l with
  | nil => simp
  | cons c R ih =>
    obtain ⟨hcR, hR'⟩ := List.nodup_cons.mp hR
    have h1 : l.filter (fun k => decide (k ∉ c :: R))
        = (l.filter (fun k => decide (¬ k = c))).filter (fun k => decide (k ∉ R)) := by
      rw [List.filter_filter]
      refine (List.filter_congr ?_).symm
      intro x _
      by_cases hc : x = c <;> by_cases hr : x ∈ R <;> simp [hc, hr]
    have h2 : l.filter (fun k => decide (¬ k = c)) = l.erase c := by
      rw [hl.erase_eq_filter]
      refine List.filter_congr ?_
      intro x _
      rcases Decidable.em (x = c) with hc | hc <;> simp [hc, bne]
    rw [h1, h2, ih (hl.erase c) hR'
      (fun r hr => (List.mem_erase_of_ne (fun hrc => hcR (by rw [← hrc]; exact hr))).mpr
        (hsub r (List.mem_cons_of_mem c hr))),
      List.length_erase_of_mem (hsub c (List.mem_cons_self c R))]
    simp only [List.length_cons]
    omega

theorem removeKeys_map_fst (ts : List (TileCoordinate × TerrainTile))
    (R : List TileCoordinate) :
    (removeKeys ts R).map Prod.fst
      = (ts.map Prod.fst).filter (fun k => decide (k ∉ R)) := by
  unfold removeKeys
  exact (@List.filter_map _ _ (fun k => decide (k ∉ R)) Prod.fst ts).symm

theorem getLRUTiles_length (m : TerrainTileManager) {k : ℕ}
    (hk : k ≤ m.tiles.length) : (m.getLRUTiles k).length = k := by
  unfold getLRUTiles
  rw [List.length_take, sortKeyDesc_length]
  omega

theorem getLRUTiles_keys_nodup (m : TerrainTileManager) (hWF : m.WF) (k : ℕ) :
    ((m.getLRUTiles k).map Prod.fst).Nodup := by
  have hperm := (sortKeyDesc_perm (fun p => p.2.framesSinceAccess) m.tiles).map Prod.fst
  have hnd : ((sortKeyDesc (fun p => p.2.framesSinceAccess) m.tiles).map Prod.fst).Nodup :=
    hperm.nodup_iff.mpr hWF
  exact ((List.take_sublist k _).map Prod.fst).nodup hnd

theorem getLRUTiles_keys_sub (m : TerrainTileManager) (k : ℕ) :
    ∀ r ∈ (m.getLRUTiles k).map Prod.fst, r ∈ m.tiles.map Prod.fst := by
  intro r hr
  unfold getLRUTiles at hr
  obtain ⟨p, hp, rfl⟩ := List.mem_map.mp hr
  have hp' : p ∈ m.tiles :=
    (sortKeyDesc_perm (fun p => p.2.framesSinceAccess) m.tiles).mem_iff.mp
      ((List.take_sublist k _).subset hp)
  exact List.mem_map_of_mem Prod.fst hp'

theorem enforceLimits_length (m : TerrainTileManager) (hWF : m.WF) :
    m.enforceLimits.tiles.length ≤ m.maxTiles := by
  unfold enforceLimits
  split
  · assumption
  · rename_i hover
    push_neg at hover
    have hk : m.tiles.length - m.maxTiles ≤ m.tiles.length := Nat.sub_le _ _
    have hlen : (removeKeys m.tiles
        ((m.getLRUTiles (m.tiles.length - m.maxTiles)).map Prod.fst)).length
        = m.tiles.length - (m.tiles.length - m.maxTiles) := by
      have hmap := removeKeys_map_fst m.tiles
        ((m.getLRUTiles (m.tiles.length - m.maxTiles)).map Prod.fst)
      have := keys_filter_not_mem_length hWF
        (getLRUTiles_keys_nodup m hWF (m.tiles.length - m.maxTiles))
        (getLRUTiles_keys_sub m (m.tiles.length - m.maxTiles))
      calc (removeKeys m.tiles _).length
          = ((removeKeys m.tiles _).map Prod.fst).length := (List.length_map _ _).symm
        _ = _ := by
            rw [hmap, this, List.length_map, List.length_map,
              getLRUTiles_length m hk]
    simp only [hlen]
    omega

theorem enforceLimits_lru (m : TerrainTileManager) (hWF : m.WF) :
    ∀ p ∈ m.tiles, p ∉ m.enforceLimits.tiles →
      ∀ q ∈ m.enforceLimits.tiles,
        q.2.framesSinceAccess ≤ p.2.framesSinceAccess := by
  intro p hp hpr q hq
  unfold enforceLimits at hpr hq
  by_cases hle : m.tiles.length ≤ m.maxTiles
  · rw [if_pos hle] at hpr
    exact absurd hp hpr
  · rw [if_neg hle] at hpr hq
    simp only at hpr hq
    unfold removeKeys getLRUTiles at hpr hq
    have hperm := sortKeyDesc_perm (fun r => r.2.framesSinceAccess) m.tiles
    -- p was erased, so its key is among the LRU keys
    have hpR : p.1 ∈ ((sortKeyDesc (fun r => r.2.framesSinceAccess) m.tiles).take
        (m.tiles.length - m.maxTiles)).map Prod.fst := by
      by_contra hnot
      exact hpr (List.mem_filter.mpr ⟨hp, decide_eq_true hnot⟩)
    obtain ⟨p', hp'take, hp'key⟩ := List.mem_map.mp hpR
    have hp'tiles : p' ∈ m.tiles := hperm.mem_iff.mp ((List.take_sublist _ _).subset hp'take)
    have hpp' : p' = p := keys_inj hWF hp'tiles hp hp'key
    -- q was kept, so it sits behind the cut in the sorted order
    have hqmem := List.mem_filter.mp hq
    have hqR : q.1 ∉ ((sortKeyDesc (fun r => r.2.framesSinceAccess) m.tiles).take
        (m.tiles.length - m.maxTiles)).map Prod.fst :=
      of_decide_eq_true hqmem.2
    have hqsorted : q ∈ sortKeyDesc (fun r => r.2.framesSinceAccess) m.tiles :=
      hperm.mem_iff.mpr hqmem.1
    have hsplit := List.take_append_drop (m.tiles.length - m.maxTiles)
      (sortKeyDesc (fun r => r.2.framesSinceAccess) m.tiles)
    rw [← hsplit] at hqsorted
    rcases List.mem_append.mp hqsorted with hqtake | hqdrop
    · exact absurd (List.mem_map_of_mem Prod.fst hqtake) hqR
    · exact sortKeyDesc_take_drop (fun r => r.2.framesSinceAccess) m.tiles
        (m.tiles.length - m.maxTiles) (hpp' ▸ hp'take) hqdrop

theorem getTile_eq_none {m : TerrainTileManager} {c : TileCoordinate}
    (h : m.getTile c = none) : c ∉ m.tiles.map Prod.fst := by
  unfold getTile at h
  intro hc
  obtain ⟨p, hp, rfl⟩ := List.mem_map.mp hc
  cases hf : List.find? (fun q => decide (q.1 = p.1)) m.tiles with
  | some q => rw [hf] at h; cases h
  | none =>
    have := List.find?_eq_none.mp hf p hp
    simp at this

end TerrainTileManager

/-! ### C2: what `createTile` does and does not enforce -/

/-- C2 (amended): from any well-formed within-limit state, `createTile`
leaves at most `maxTiles` tiles in the map, and every tile it evicts has a
`framesSinceAccess` at least as large as that of every kept tile (LRU
ranked by `framesSinceAccess` descending).  The memory half of the original
claim is refuted separately: `enforceLimits` never consults
`maxMemoryUsage`. -/
theorem createTile_count_and_lru (m : TerrainTileManager) (c : TileCoordinate)
    (hWF : m.WF) (hlen : m.tiles.length ≤ m.maxTiles) :
    ((m.createTile c).1.tiles.length ≤ m.maxTiles) ∧
    (∀ p ∈ m.tiles, p ∉ (m.createTile c).1.tiles →
      ∀ q ∈ (m.createTile c).1.tiles,
        q.2.framesSinceAccess ≤ p.2.framesSinceAccess) := by
  cases h : m.getTile c with
  | some t =>
    simp only [TerrainTileManager.createTile, h]
    exact ⟨hlen, fun p hp hpr q hq => absurd hp hpr⟩
  | none =>
    have hc : c ∉ m.tiles.map Prod.fst := TerrainTileManager.getTile_eq_none h
    have hWF' : ({ m with tiles := m.tiles ++ [(c, TerrainTile.new c)] } :
        TerrainTileManager).WF := by
      unfold TerrainTileManager.WF at hWF ⊢
      simp only [List.map_append, List.map_cons, List.map_nil]
      rw [List.nodup_append]
      refine ⟨hWF, List.nodup_singleton _, ?_⟩
      intro a ha hb
      rw [List.mem_singleton] at hb
      exact hc (hb ▸ ha)
    constructor
    · simp only [TerrainTileManager.createTile, h]
      exact TerrainTileManager.enforceLimits_length _ hWF'
    · intro p hp hpr q hq
      simp only [TerrainTileManager.createTile, h] at hpr hq
      exact TerrainTileManager.enforceLimits_lru _ hWF' p
        (List.mem_append_left _ hp) hpr q hq

/-- C2 witness: a one-tile map with `maxTiles = 1` receiving a second tile. -/
theorem createTile_count_and_lru_witness :
    (((TerrainTileManager.mk [(⟨0, 0, 0, "w"⟩, TerrainTile.new ⟨0, 0, 0, "w"⟩)] 1 0).createTile
        ⟨1, 0, 0, "w"⟩).1.tiles.length ≤ 1) ∧
    (∀ p ∈ (TerrainTileManager.mk [(⟨0, 0, 0, "w"⟩, TerrainTile.new ⟨0, 0, 0, "w"⟩)] 1 0).tiles,
      p ∉ ((TerrainTileManager.mk [(⟨0, 0, 0, "w"⟩, TerrainTile.new ⟨0, 0, 0, "w"⟩)] 1 0).createTile
          ⟨1, 0, 0, "w"⟩).1.tiles →
      ∀ q ∈ ((TerrainTileManager.mk [(⟨0, 0, 0, "w"⟩, TerrainTile.new ⟨0, 0, 0, "w"⟩)] 1 0).createTile
          ⟨1, 0, 0, "w"⟩).1.tiles,
        q.2.framesSinceAccess ≤ p.2.framesSinceAccess) :=
  createTile_count_and_lru
    (TerrainTileManager.mk [(⟨0, 0, 0, "w"⟩, TerrainTile.new ⟨0, 0, 0, "w"⟩)] 1 0)
    ⟨1, 0, 0, "w"⟩ (by decide) (by decide)

/-- The counterexample trace for C2: limits `maxTiles = 2`,
`maxMemoryUsage = 1`; create A and B, load A's data (1 MiB of heights),
age B by one frame, then create C. -/
def cexMgrA : TerrainTileManager :=
  ((TerrainTileManager.init 2 1).createTile ⟨0, 0, 0, "d"⟩).1

def cexMgrB : TerrainTileManager := (cexMgrA.createTile ⟨1, 0, 0, "d"⟩).1

def cexMgrL : TerrainTileManager :=
  cexMgrB.withTile ⟨0, 0, 0, "d"⟩ (fun t => t.loadData.1)

def cexMgrI : TerrainTileManager :=
  cexMgrL.withTile ⟨1, 0, 0, "d"⟩ TerrainTile.incrementFrameCounter

def cexMgrC : TerrainTileManager := (cexMgrI.createTile ⟨2, 0, 0, "d"⟩).1

/-- C2 counterexample: immediately after the final `createTile` the tile
count is within `maxTiles`, but the total memory usage of the held tiles
(1048576 bytes) exceeds `maxMemoryUsage` (1 byte) — `enforceLimits` never
examines memory usage, so the memory half of the claim is false. -/
theorem createTile_count_and_lru_cex :
    cexMgrC.tiles.length ≤ cexMgrC.maxTiles ∧
    ¬ (cexMgrC.getTotalMemoryUsage ≤ cexMgrC.maxMemoryUsage) := by
  constructor
  · decide
  · decide

/-! ### C9: eviction is terminal for loadData/uploadToGPU -/

/-- Guard of `loadData`: any non-`Empty` tile is rejected unchanged. -/
theorem loadData_guard (t : TerrainTile) (h : t.state ≠ .empty) :
    t.loadData = (t, .errorInitializationFailed) := by
  simp [TerrainTile.loadData, h]

/-- Guard of `uploadToGPU`: any non-`Loaded` tile is rejected unchanged. -/
theorem uploadToGPU_guard (t : TerrainTile) (o : GpuOracle)
    (h : t.state ≠ .loaded) : t.uploadToGPU o = (t, .errorInitializationFailed) := by
  simp [TerrainTile.uploadToGPU, h]

/-- A step of the loader: a call to `loadData` or to `uploadToGPU`. -/
inductive LoadUploadOp where
  | load
  | upload (o : GpuOracle)

/-- Apply one loader call to a tile, keeping the resulting tile. -/
def TerrainTile.applyLoadUpload (t : TerrainTile) : LoadUploadOp → TerrainTile
  | .load => t.loadData.1
  | .upload o => (t.uploadToGPU o).1

/-- Apply a sequence of loader calls to a tile. -/
def TerrainTile.applyLoadUploads (t : TerrainTile) (ops : List LoadUploadOp) :
    TerrainTile :=
  ops.foldl TerrainTile.applyLoadUpload t

theorem applyLoadUpload_evicted {t : TerrainTile} (h : t.state = .evicted)
    (op : LoadUploadOp) : t.applyLoadUpload op = t := by
  cases op with
  | load =>
    show t.loadData.1 = t
    rw [loadData_guard t (by rw [h]; intro hc; cases hc)]
  | upload o =>
    show (t.uploadToGPU o).1 = t
    rw [uploadToGPU_guard t o (by rw [h]; intro hc; cases hc)]

theorem applyLoadUploads_evicted {t : TerrainTile} (h : t.state = .evicted)
    (ops : List LoadUploadOp) : t.applyLoadUploads ops = t := by
  induction ops with
  | nil => rfl
  | cons op ops ih =>
    show (t.applyLoadUpload op).applyLoadUploads ops = t
    rw [applyLoadUpload_evicted h op, ih]

/-- C9: an `Evicted` tile rejects `loadData` (it stays `Evicted`), rejects
`uploadToGPU`, never reaches `Ready` under any sequence of
`loadData`/`uploadToGPU` calls — yet `getHighPriorityLoadingQueue` still
returns its coordinate as a load candidate. -/
theorem evicted_is_terminal (t : TerrainTile) (h : t.state = .evicted) :
    t.loadData = (t, .errorInitializationFailed) ∧
    (∀ o : GpuOracle, t.uploadToGPU o = (t, .errorInitializationFailed)) ∧
    (∀ ops : List LoadUploadOp, (t.applyLoadUploads ops).state = .evicted ∧
      (t.applyLoadUploads ops).state ≠ .ready) ∧
    (∀ (m : TerrainTileManager) (c : TileCoordinate) (maxCount : ℕ),
      (c, t) ∈ m.tiles →
      (m.tiles.filter
        (fun p => decide (p.2.state = .empty ∨ p.2.state = .evicted))).length ≤ maxCount →
      c ∈ m.getHighPriorityLoadingQueue maxCount) := by
  refine ⟨loadData_guard t (by rw [h]; intro hc; cases hc),
    fun o => uploadToGPU_guard t o (by rw [h]; intro hc; cases hc),
    fun ops => ?_, fun m c maxCount hmem hcount => ?_⟩
  · rw [applyLoadUploads_evicted h ops, h]
    exact ⟨rfl, by intro hc; cases hc⟩
  · unfold TerrainTileManager.getHighPriorityLoadingQueue
    have hfmem : (c, t) ∈ m.tiles.filter
        (fun p => decide (p.2.state = .empty ∨ p.2.state = .evicted)) :=
      List.mem_filter.mpr ⟨hmem, decide_eq_true (Or.inr h)⟩
    have hplmem : (c, t.priority) ∈ (m.tiles.filter
        (fun p => decide (p.2.state = .empty ∨ p.2.state = .evicted))).map
          (fun p => (p.1, p.2.priority)) := by
      exact List.mem_map.mpr ⟨(c, t), hfmem, rfl⟩
    have hsmem : (c, t.priority) ∈ sortKeyDesc (fun q => q.2)
        ((m.tiles.filter
          (fun p => decide (p.2.state = .empty ∨ p.2.state = .evicted))).map
            (fun p => (p.1, p.2.priority))) :=
      (sortKeyDesc_perm _ _).mem_iff.mpr hplmem
    have htake : (sortKeyDesc (fun q : TileCoordinate × ℚ => q.2)
        ((m.tiles.filter
          (fun p => decide (p.2.state = .empty ∨ p.2.state = .evicted))).map
            (fun p => (p.1, p.2.priority)))).take maxCount
        = sortKeyDesc (fun q => q.2)
        ((m.tiles.filter
          (fun p => decide (p.2.state = .empty ∨ p.2.state = .evicted))).map
            (fun p => (p.1, p.2.priority))) := by
      apply List.take_of_length_le
      rw [sortKeyDesc_length, List.length_map]
      exact hcount
    rw [htake]
    exact List.mem_map.mpr ⟨(c, t.priority), hsmem, rfl⟩

/-- C9 witness: a single evicted tile inside a manager with room in the
queue. -/
theorem evicted_is_terminal_witness :
    (((TerrainTile.new ⟨0, 0, 0, "d"⟩).setState .evicted).loadData
      = (((TerrainTile.new ⟨0, 0, 0, "d"⟩).setState .evicted), .errorInitializationFailed)) ∧
    (∀ o : GpuOracle, ((TerrainTile.new ⟨0, 0, 0, "d"⟩).setState .evicted).uploadToGPU o
      = (((TerrainTile.new ⟨0, 0, 0, "d"⟩).setState .evicted), .errorInitializationFailed)) ∧
    (∀ ops : List LoadUploadOp,
      (((TerrainTile.new ⟨0, 0, 0, "d"⟩).setState .evicted).applyLoadUploads ops).state = .evicted ∧
      (((TerrainTile.new ⟨0, 0, 0, "d"⟩).setState .evicted).applyLoadUploads ops).state ≠ .ready) ∧
    (∀ (m : TerrainTileManager) (c : TileCoordinate) (maxCount : ℕ),
      (c, (TerrainTile.new ⟨0, 0, 0, "d"⟩).setState .evicted) ∈ m.tiles →
      (m.tiles.filter
        (fun p => decide (p.2.state = .empty ∨ p.2.state = .evicted))).length ≤ maxCount →
      c ∈ m.getHighPriorityLoadingQueue maxCount) :=
  evicted_is_terminal ((TerrainTile.new ⟨0, 0, 0, "d"⟩).setState .evicted) (by decide)

/-! ## Memory pool (terrain_memory_pool.cpp) -/

/-- Per-type pool configuration (`TerrainMemoryConfig::TypeConfig`). -/
structure TypeConfig where
  preferredPoolSize : ℕ
  minPoolSize : ℕ
  allocationAlignment : ℕ
  enableDefragmentation : Bool
  deriving DecidableEq, Repr

/-- Size alignment `(size + alignment - 1) & ~(alignment - 1)`; for the
power-of-two alignments the pools use, the bit mask clears the low bits,
i.e. subtracts the remainder modulo the alignment. -/
def alignSize (size alignment : ℕ) : ℕ :=
  (size + alignment - 1) - ((size + alignment - 1) % alignment)

theorem alignSize_ge (size : ℕ) {alignment : ℕ} (h : 0 < alignment) :
    size ≤ alignSize size alignment := by
  unfold alignSize
  have := Nat.mod_lt (size + alignment - 1) h
  omega

/-- Embeds `TerrainMemoryPool`: total/used size, active-allocation count,
the tracked allocation sizes (`m_allocations`), and whether the VMA pool
has been created (`m_vmaPool != VK_NULL_HANDLE`). -/
structure TerrainMemoryPool where
  totalSize : ℕ
  usedSize : ℕ
  activeAllocations : ℕ
  allocations : List ℕ
  vmaPoolExists : Bool
  config : TypeConfig
  deriving DecidableEq, Repr

/-- Results of the external VMA calls made by the pool, passed in as an
oracle; `imageSize` is the size VMA reports for an image allocation
(`allocation->info.size`). -/
structure PoolOracle where
  createPoolResult : VkR
  createResult : VkR
  imageSize : ℕ
  deriving DecidableEq, Repr

namespace TerrainMemoryPool

/-- Fresh pool of a given configuration (constructor: nothing allocated,
no VMA pool yet). -/
def new (config : TypeConfig) : TerrainMemoryPool :=
  ⟨0, 0, 0, [], false, config⟩

/-- Embeds `createPool`: on success the VMA pool exists and
`m_totalSize = preferredPoolSize`. -/
def createPool (p : TerrainMemoryPool) (o : PoolOracle) : TerrainMemoryPool × VkR :=
  if o.createPoolResult = .success then
    ({ p with vmaPoolExists := true, totalSize := p.config.preferredPoolSize }, .success)
  else (p, o.createPoolResult)

/-- Embeds `canAllocate`: `used + alignedSize <= total`. -/
def canAllocate (p : TerrainMemoryPool) (size alignment : ℕ) : Bool :=
  decide (p.usedSize + alignSize size alignment ≤ p.totalSize)

/-- Embeds `allocateBuffer`: lazy pool creation, the `canAllocate`
out-of-memory guard, then `vmaCreateBuffer`; on success the tracking adds
the *requested* size `bufferInfo.size` (not the aligned size). -/
def allocateBuffer (p : TerrainMemoryPool) (o : PoolOracle) (size : ℕ) :
    TerrainMemoryPool × VkR :=
  let step := if p.vmaPoolExists then (p, VkR.success) else p.createPool o
  if step.2 ≠ .success then (step.1, step.2)
  else
    let p1 := step.1
    if ¬ p1.canAllocate size p1.config.allocationAlignment then
      (p1, .errorOutOfDeviceMemory)
    else if o.createResult ≠ .success then (p1, o.createResult)
    else
      let p2 := { p1 with usedSize := p1.usedSize + size, activeAllocations := p1.activeAllocations + 1, allocations := p1.allocations ++ [size] }
      (p2, .success)

/-- Embeds `allocateImage`: lazy pool creation, then `vmaCreateImage`
directly — the source performs no `canAllocate` check on this path; on
success the VMA-reported size is added to the tracking. -/
def allocateImage (p : TerrainMemoryPool) (o : PoolOracle) :
    TerrainMemoryPool × VkR :=
  let step := if p.vmaPoolExists then (p, VkR.success) else p.createPool o
  if step.2 ≠ .success then (step.1, step.2)
  else
    let p1 := step.1
    if o.createResult ≠ .success then (p1, o.createResult)
    else
      let p2 := { p1 with usedSize := p1.usedSize + o.imageSize, activeAllocations := p1.activeAllocations + 1, allocations := p1.allocations ++ [o.imageSize] }
      (p2, .success)

/-- Embeds `deallocate` for a valid allocation of the given size owned by
this pool: used size and active count decrease, the tracking entry is
removed. -/
def deallocate (p : TerrainMemoryPool) (size : ℕ) (isValidAlloc : Bool) :
    TerrainMemoryPool :=
  if ¬ isValidAlloc then p
  else
    { p with usedSize := p.usedSize - size, activeAllocations := p.activeAllocations - 1, allocations := p.allocations.erase size }

/-- Embeds `resize`: rejected below the used size, otherwise the total is
set to the new size (the explicit growth path). -/
def resize (p : TerrainMemoryPool) (newSize : ℕ) : TerrainMemoryPool × VkR :=
  if newSize < p.usedSize then (p, .errorValidationFailed)
  else ({ p with totalSize := newSize }, .success)

/-- Embeds `getFragmentation`:
`1 - largestFreeBlock / totalFreeMemory` where both are computed as
`total - used`. -/
def getFragmentation (p : TerrainMemoryPool) : ℚ :=
  if p.totalSize = 0 then 0
  else
    if p.totalSize - p.usedSize = 0 then 0
    else 1 - ((p.totalSize - p.usedSize : ℕ) : ℚ) / ((p.totalSize - p.usedSize : ℕ) : ℚ)

end TerrainMemoryPool

/-- Average fragmentation across pools, as recomputed by
`updateGlobalStats` into `m_stats.fragmentation`. -/
def statsFragmentation (pools : List TerrainMemoryPool) : ℚ :=
  if pools.isEmpty then 0
  else (pools.map TerrainMemoryPool.getFragmentation).sum / pools.length

/-- The defragmentation condition of `backgroundWorker`:
`m_stats.fragmentation > m_config.defragmentationThreshold`. -/
def backgroundDefragTriggered (fragmentation threshold : ℚ) : Bool :=
  decide (threshold < fragmentation)

/-- C10: `getFragmentation` returns exactly 0 in every pool state (the
largest-free-block estimate always equals the total free memory), so the
background worker's averaged fragmentation is 0 and its defragmentation
condition is never met for a positive threshold. -/
theorem fragmentation_always_zero (p : TerrainMemoryPool)
    (pools : List TerrainMemoryPool) (threshold : ℚ) (hthr : 0 < threshold) :
    p.getFragmentation = 0 ∧
    statsFragmentation pools = 0 ∧
    backgroundDefragTriggered (statsFragmentation pools) threshold = false := by
  have hzero : ∀ q : TerrainMemoryPool, q.getFragmentation = 0 := by
    intro q
    unfold TerrainMemoryPool.getFragmentation
    split
    · rfl
    · split
      · rfl
      · rename_i h0 hfree
        rw [div_self (by exact_mod_cast hfree)]
        ring
  have hstats : statsFragmentation pools = 0 := by
    unfold statsFragmentation
    split
    · rfl
    · have hsum : ∀ ps : List TerrainMemoryPool,
          (ps.map TerrainMemoryPool.getFragmentation).sum = 0 := by
        intro ps
        induction ps with
        | nil => rfl
        | cons q qs ih => simp [hzero q, ih]
      rw [hsum pools]
      simp
  refine ⟨hzero p, hstats, ?_⟩
  unfold backgroundDefragTriggered
  rw [hstats]
  simp only [decide_eq_false_iff_not, not_lt]
  exact le_of_lt hthr

/-- C10 witness: a half-used pool, a two-pool list, threshold 1/10. -/
theorem fragmentation_always_zero_witness :
    (TerrainMemoryPool.mk 100 40 1 [40] true ⟨128, 16, 256, true⟩).getFragmentation = 0 ∧
    statsFragmentation [TerrainMemoryPool.mk 100 40 1 [40] true ⟨128, 16, 256, true⟩,
      TerrainMemoryPool.new ⟨128, 16, 256, true⟩] = 0 ∧
    backgroundDefragTriggered (statsFragmentation
      [TerrainMemoryPool.mk 100 40 1 [40] true ⟨128, 16, 256, true⟩,
        TerrainMemoryPool.new ⟨128, 16, 256, true⟩]) (1 / 10) = false :=
  fragmentation_always_zero (TerrainMemoryPool.mk 100 40 1 [40] true ⟨128, 16, 256, true⟩)
    [TerrainMemoryPool.mk 100 40 1 [40] true ⟨128, 16, 256, true⟩,
      TerrainMemoryPool.new ⟨128, 16, 256, true⟩] (1 / 10) (by norm_num)

/-! ### C3: the out-of-memory guard and the `used ≤ total` invariant -/

/-- C3 (amended): for a pool whose VMA pool already exists, a *buffer*
allocation with `used + alignedSize > total` is rejected with
out-of-memory and the pool is unchanged; a buffer allocation never changes
the total size; and buffer allocation, deallocation and resize all
preserve `used ≤ total`.  (Image allocations perform no such check and can
break the invariant — see the counterexample; and the lazy pool creation
inside the first allocation raises the total from 0 to
`preferredPoolSize`.) -/
theorem pool_oom_guard (p : TerrainMemoryPool) (o : PoolOracle)
    (size newSize dsize : ℕ) (b : Bool)
    (hexists : p.vmaPoolExists = true)
    (hinv : p.usedSize ≤ p.totalSize)
    (halign : 0 < p.config.allocationAlignment) :
    (¬ p.canAllocate size p.config.allocationAlignment = true →
      p.allocateBuffer o size = (p, .errorOutOfDeviceMemory)) ∧
    ((p.allocateBuffer o size).1.totalSize = p.totalSize) ∧
    ((p.allocateBuffer o size).1.usedSize ≤ (p.allocateBuffer o size).1.totalSize) ∧
    ((p.deallocate dsize b).usedSize ≤ (p.deallocate dsize b).totalSize) ∧
    ((p.resize newSize).1.usedSize ≤ (p.resize newSize).1.totalSize) := by
  refine ⟨?_, ?_, ?_, ?_, ?_⟩
  · intro hcan
    simp [TerrainMemoryPool.allocateBuffer, hexists, hcan]
  · by_cases hcan : p.canAllocate size p.config.allocationAlignment = true
    · by_cases hcr : o.createResult = .success <;>
        simp [TerrainMemoryPool.allocateBuffer, hexists, hcan, hcr]
    · simp [TerrainMemoryPool.allocateBuffer, hexists, hcan]
  · by_cases hcan : p.canAllocate size p.config.allocationAlignment = true
    · by_cases hcr : o.createResult = .success
      · have hle : p.usedSize + alignSize size p.config.allocationAlignment
            ≤ p.totalSize := of_decide_eq_true hcan
        have hS := alignSize_ge size halign
        simp only [TerrainMemoryPool.allocateBuffer, hexists, hcan, hcr]
        simp only [if_true, ite_true, if_false, ite_false, ne_eq, not_true_eq_false,
          Bool.true_eq_false, if_neg (fun hc : False => hc)]
        simp [hcan]
        omega
      · simp [TerrainMemoryPool.allocateBuffer, hexists, hcan, hcr, hinv]
    · simp [TerrainMemoryPool.allocateBuffer, hexists, hcan, hinv]
  · unfold TerrainMemoryPool.deallocate
    split
    · exact hinv
    · simp only
      omega
  · unfold TerrainMemoryPool.resize
    split
    · exact hinv
    · rename_i hge
      push_neg at hge
      simpa using hge

/-- C3 witness: a created 64-byte pool, 50 bytes used, asked for 100 more
(aligned to 256): rejected with out-of-memory, state intact; deallocation
and resize keep `used ≤ total`. -/
theorem pool_oom_guard_witness :
    (¬ (TerrainMemoryPool.mk 64 50 1 [50] true ⟨64, 16, 256, true⟩).canAllocate 100 256 = true →
      (TerrainMemoryPool.mk 64 50 1 [50] true ⟨64, 16, 256, true⟩).allocateBuffer
        ⟨.success, .success, 0⟩ 100
        = (TerrainMemoryPool.mk 64 50 1 [50] true ⟨64, 16, 256, true⟩, .errorOutOfDeviceMemory)) ∧
    (((TerrainMemoryPool.mk 64 50 1 [50] true ⟨64, 16, 256, true⟩).allocateBuffer
        ⟨.success, .success, 0⟩ 100).1.totalSize
      = (TerrainMemoryPool.mk 64 50 1 [50] true ⟨64, 16, 256, true⟩).totalSize) ∧
    (((TerrainMemoryPool.mk 64 50 1 [50] true ⟨64, 16, 256, true⟩).allocateBuffer
        ⟨.success, .success, 0⟩ 100).1.usedSize
      ≤ ((TerrainMemoryPool.mk 64 50 1 [50] true ⟨64, 16, 256, true⟩).allocateBuffer
        ⟨.success, .success, 0⟩ 100).1.totalSize) ∧
    (((TerrainMemoryPool.mk 64 50 1 [50] true ⟨64, 16, 256, true⟩).deallocate 50 true).usedSize
      ≤ ((TerrainMemoryPool.mk 64 50 1 [50] true ⟨64, 16, 256, true⟩).deallocate 50 true).totalSize) ∧
    (((TerrainMemoryPool.mk 64 50 1 [50] true ⟨64, 16, 256, true⟩).resize 80).1.usedSize
      ≤ ((TerrainMemoryPool.mk 64 50 1 [50] true ⟨64, 16, 256, true⟩).resize 80).1.totalSize) :=
  pool_oom_guard (TerrainMemoryPool.mk 64 50 1 [50] true ⟨64, 16, 256, true⟩)
    ⟨.success, .success, 0⟩ 100 80 50 true (by decide) (by decide) (by decide)

/-- C3 counterexample: an *image* allocation is never checked against the
pool budget — on a 16-byte pool with 10 bytes used, a 100-byte image
allocation succeeds (no out-of-memory) and drives `used` to 110 > 16,
breaking `used ≤ total`; and the first *buffer* allocation on a fresh pool
changes the total size (0 → preferredPoolSize) even when it then rejects
with out-of-memory, so an allocation call does increase the total size. -/
theorem pool_oom_guard_cex :
    (((TerrainMemoryPool.mk 16 10 1 [10] true ⟨128, 16, 256, true⟩).allocateImage
        ⟨.success, .success, 100⟩).2 = .success) ∧
    ¬ (((TerrainMemoryPool.mk 16 10 1 [10] true ⟨128, 16, 256, true⟩).allocateImage
        ⟨.success, .success, 100⟩).1.usedSize
      ≤ ((TerrainMemoryPool.mk 16 10 1 [10] true ⟨128, 16, 256, true⟩).allocateImage
        ⟨.success, .success, 100⟩).1.totalSize) ∧
    (((TerrainMemoryPool.new ⟨128, 16, 256, true⟩).allocateBuffer
        ⟨.success, .success, 0⟩ 200).2 = .errorOutOfDeviceMemory) ∧
    ¬ (((TerrainMemoryPool.new ⟨128, 16, 256, true⟩).allocateBuffer
        ⟨.success, .success, 0⟩ 200).1.totalSize
      = (TerrainMemoryPool.new ⟨128, 16, 256, true⟩).totalSize) := by
  refine ⟨?_, ?_, ?_, ?_⟩ <;> decide

/-! ### C4: allocation/deallocation accounting -/

/-- Iterated successful buffer allocations of one size. -/
def TerrainMemoryPool.allocBufferN (p : TerrainMemoryPool) (o : PoolOracle)
    (size : ℕ) : ℕ → TerrainMemoryPool
  | 0 => p
  | Nat.succ n => ((p.allocBufferN o size n).allocateBuffer o size).1

/-- Iterated deallocations of one size. -/
def TerrainMemoryPool.deallocN (p : TerrainMemoryPool) (size : ℕ) :
    ℕ → TerrainMemoryPool
  | 0 => p
  | Nat.succ n => (p.deallocN size n).deallocate size true

theorem allocBufferN_spec (cfg : TypeConfig) (o : PoolOracle) (S : ℕ)
    (halign : 0 < cfg.allocationAlignment) (hok : o.createResult = .success)
    (N : ℕ) (hfit : N * alignSize S cfg.allocationAlignment ≤ cfg.preferredPoolSize)
    (i : ℕ) (hi : i ≤ N) :
    (TerrainMemoryPool.mk cfg.preferredPoolSize 0 0 [] true cfg).allocBufferN o S i
      = TerrainMemoryPool.mk cfg.preferredPoolSize (i * S) i (List.replicate i S) true cfg := by
  induction i with
  | zero => simp [TerrainMemoryPool.allocBufferN]
  | succ i ih =>
    have hi' : i ≤ N := le_trans (Nat.le_succ i) hi
    have hstep : (TerrainMemoryPool.mk cfg.preferredPoolSize 0 0 [] true cfg).allocBufferN o S (i + 1)
        = (((TerrainMemoryPool.mk cfg.preferredPoolSize 0 0 [] true cfg).allocBufferN o S i).allocateBuffer o S).1 := rfl
    rw [hstep, ih hi']
    have hS := alignSize_ge S halign
    have hcan : (TerrainMemoryPool.mk cfg.preferredPoolSize (i * S) i
        (List.replicate i S) true cfg).canAllocate S cfg.allocationAlignment = true := by
      apply decide_eq_true
      show i * S + alignSize S cfg.allocationAlignment ≤ cfg.preferredPoolSize
      calc i * S + alignSize S cfg.allocationAlignment
          ≤ i * alignSize S cfg.allocationAlignment + alignSize S cfg.allocationAlignment :=
            Nat.add_le_add_right (Nat.mul_le_mul_left i hS) _
        _ = (i + 1) * alignSize S cfg.allocationAlignment := by ring
        _ ≤ N * alignSize S cfg.allocationAlignment :=
            Nat.mul_le_mul_right _ hi
        _ ≤ cfg.preferredPoolSize := hfit
    simp only [TerrainMemoryPool.allocateBuffer, hcan, hok]
    simp [hcan, List.replicate_succ', Nat.succ_mul]

theorem deallocN_spec (cfg : TypeConfig) (S N : ℕ) (j : ℕ) (hj : j ≤ N) :
    (TerrainMemoryPool.mk cfg.preferredPoolSize (N * S) N (List.replicate N S) true cfg).deallocN S j
      = TerrainMemoryPool.mk cfg.preferredPoolSize ((N - j) * S) (N - j)
          (List.replicate (N - j) S) true cfg := by
  induction j with
  | zero => rfl
  | succ j ih =>
    have hj' : j ≤ N := le_trans (Nat.le_succ j) hj
    have hstep : (TerrainMemoryPool.mk cfg.preferredPoolSize (N * S) N (List.replicate N S) true cfg).deallocN S (j + 1)
        = ((TerrainMemoryPool.mk cfg.preferredPoolSize (N * S) N (List.replicate N S) true cfg).deallocN S j).deallocate S true := rfl
    rw [hstep, ih hj']
    unfold TerrainMemoryPool.deallocate
    rw [if_neg (fun h => h rfl)]
    have h1 : N - j = (N - (j + 1)) + 1 := by omega
    rw [h1, List.replicate_succ, List.erase_cons_head]
    have h2 : ((N - (j + 1)) + 1) * S - S = (N - (j + 1)) * S := by
      rw [Nat.succ_mul]
      omega
    rw [h2]
    simp

/-- C4 (amended): starting from a freshly created pool, after `N`
successful buffer allocations of byte size `S` (all fitting the pool
budget) the used size equals `N × S` — the source tracks the *requested*
size, not the aligned size — and after deallocating all `N` allocations
the used size and the active-allocation count are both `0`. -/
theorem pool_accounting (cfg : TypeConfig) (o : PoolOracle) (S N : ℕ)
    (halign : 0 < cfg.allocationAlignment) (hok : o.createResult = .success)
    (hokp : o.createPoolResult = .success)
    (hfit : N * alignSize S cfg.allocationAlignment ≤ cfg.preferredPoolSize) :
    ((((TerrainMemoryPool.new cfg).createPool o).1.allocBufferN o S N).usedSize = N * S) ∧
    ((((TerrainMemoryPool.new cfg).createPool o).1.allocBufferN o S N).activeAllocations = N) ∧
    (((((TerrainMemoryPool.new cfg).createPool o).1.allocBufferN o S N).deallocN S N).usedSize = 0) ∧
    (((((TerrainMemoryPool.new cfg).createPool o).1.allocBufferN o S N).deallocN S N).activeAllocations = 0) := by
  have hcreated : ((TerrainMemoryPool.new cfg).createPool o).1
      = TerrainMemoryPool.mk cfg.preferredPoolSize 0 0 [] true cfg := by
    simp [TerrainMemoryPool.new, TerrainMemoryPool.createPool, hokp]
  rw [hcreated, allocBufferN_spec cfg o S halign hok N hfit N (le_refl N),
    deallocN_spec cfg S N N (le_refl N)]
  simp

/-- C4 witness: a 1024-byte pool with 256-byte alignment, three successful
100-byte allocations, then three deallocations. -/
theorem pool_accounting_witness :
    ((((TerrainMemoryPool.new ⟨1024, 16, 256, true⟩).createPool
        ⟨.success, .success, 0⟩).1.allocBufferN ⟨.success, .success, 0⟩ 100 3).usedSize = 3 * 100) ∧
    ((((TerrainMemoryPool.new ⟨1024, 16, 256, true⟩).createPool
        ⟨.success, .success, 0⟩).1.allocBufferN ⟨.success, .success, 0⟩ 100 3).activeAllocations = 3) ∧
    (((((TerrainMemoryPool.new ⟨1024, 16, 256, true⟩).createPool
        ⟨.success, .success, 0⟩).1.allocBufferN ⟨.success, .success, 0⟩ 100 3).deallocN 100 3).usedSize = 0) ∧
    (((((TerrainMemoryPool.new ⟨1024, 16, 256, true⟩).createPool
        ⟨.success, .success, 0⟩).1.allocBufferN ⟨.success, .success, 0⟩ 100 3).deallocN 100 3).activeAllocations = 0) :=
  pool_accounting ⟨1024, 16, 256, true⟩ ⟨.success, .success, 0⟩ 100 3
    (by decide) (by decide) (by decide) (by decide)

/-- C4 counterexample: one successful 100-byte allocation on a pool with
256-byte alignment leaves `used = 100`, not `1 × align(100) = 256` — the
tracking adds the requested size, not the aligned size, so the claim's
`used == N × align(S)` is false. -/
theorem pool_accounting_cex :
    ((((TerrainMemoryPool.new ⟨1024, 16, 256, true⟩).createPool
        ⟨.success, .success, 0⟩).1.allocBufferN ⟨.success, .success, 0⟩ 100 1).usedSize = 100) ∧
    ¬ ((((TerrainMemoryPool.new ⟨1024, 16, 256, true⟩).createPool
        ⟨.success, .success, 0⟩).1.allocBufferN ⟨.success, .success, 0⟩ 100 1).usedSize
      = 1 * alignSize 100 256) := by
  refine ⟨?_, ?_⟩ <;> decide

/-! ## Frustum geometry (terrain_renderer.cpp) -/

/-- Three-component vector over exact rationals (models `glm::vec3`). -/
structure Vec3 where
  x : ℚ
  y : ℚ
  z : ℚ
  deriving DecidableEq, Repr

/-- A frustum plane `(a, b, c, d)`: normal `(a, b, c)` and offset `d`
(models the `glm::vec4` planes). -/
structure Plane where
  a : ℚ
  b : ℚ
  c : ℚ
  d : ℚ
  deriving DecidableEq, Repr

/-- Signed value of a plane at a point: `dot(normal, p) + d`. -/
def Plane.at (pl : Plane) (p : Vec3) : ℚ :=
  pl.a * p.x + pl.b * p.y + pl.c * p.z + pl.d

/-- Embeds `TerrainBounds` (axis-aligned box, `min`/`max`). -/
structure TerrainBounds where
  min : Vec3
  max : Vec3
  deriving DecidableEq, Repr

namespace TerrainBounds

/-- Embeds `contains`: componentwise `min <= p <= max`. -/
def contains (b : TerrainBounds) (p : Vec3) : Prop :=
  b.min.x ≤ p.x ∧ p.x ≤ b.max.x ∧
  b.min.y ≤ p.y ∧ p.y ≤ b.max.y ∧
  b.min.z ≤ p.z ∧ p.z ≤ b.max.z

instance (b : TerrainBounds) (p : Vec3) : Decidable (b.contains p) := by
  unfold contains
  infer_instance

/-- Center of the box, `(min + max) * 0.5`. -/
def center (b : TerrainBounds) : Vec3 :=
  ⟨(b.min.x + b.max.x) / 2, (b.min.y + b.max.y) / 2, (b.min.z + b.max.z) / 2⟩

end TerrainBounds

/-- The positive vertex of a box for a plane: start from `min` and move
each component to `max` when the corresponding normal component is `>= 0`
(the loop body of `Frustum::intersects` / `TerrainTile::isVisible`). -/
def positiveVertex (pl : Plane) (b : TerrainBounds) : Vec3 :=
  ⟨if 0 ≤ pl.a then b.max.x else b.min.x,
   if 0 ≤ pl.b then b.max.y else b.min.y,
   if 0 ≤ pl.c then b.max.z else b.min.z⟩

/-- One plane test: the box passes unless its positive vertex is behind
the plane (`dot(normal, positiveVertex) + distance < 0` returns false). -/
def planeTest (pl : Plane) (b : TerrainBounds) : Bool :=
  decide (0 ≤ pl.at (positiveVertex pl b))

/-- Embeds the frustum: its (up to six) planes. -/
structure Frustum where
  planes : List Plane
  deriving DecidableEq, Repr

/-- Embeds `Frustum::intersects` (and the identical
`TerrainTile::isVisible` loop): visible iff no plane rejects the box. -/
def Frustum.intersects (f : Frustum) (b : TerrainBounds) : Bool :=
  f.planes.all (fun pl => planeTest pl b)

/-- Scaling a plane by a scalar (the normalization step of
`Frustum::update` divides each plane by the length of its normal). -/
def scalePlane (k : ℚ) (pl : Plane) : Plane :=
  ⟨k * pl.a, k * pl.b, k * pl.c, k * pl.d⟩

/-- A positive per-plane rescaling — in particular the normalization in
`Frustum::update`, which divides by the positive norm of the normal —
never changes a plane test, hence never changes any visibility answer. -/
theorem planeTest_scale {k : ℚ} (hk : 0 < k) (pl : Plane) (b : TerrainBounds) :
    planeTest (scalePlane k pl) b = planeTest pl b := by
  have hpv : positiveVertex (scalePlane k pl) b = positiveVertex pl b := by
    unfold positiveVertex scalePlane
    simp only
    congr 1
    · rcases le_or_lt 0 pl.a with h | h
      · rw [if_pos h, if_pos (by positivity)]
      · rw [if_neg (not_le.mpr h), if_neg (not_le.mpr (by exact mul_neg_of_pos_of_neg hk h))]
    · rcases le_or_lt 0 pl.b with h | h
      · rw [if_pos h, if_pos (by positivity)]
      · rw [if_neg (not_le.mpr h), if_neg (not_le.mpr (by exact mul_neg_of_pos_of_neg hk h))]
    · rcases le_or_lt 0 pl.c with h | h
      · rw [if_pos h, if_pos (by positivity)]
      · rw [if_neg (not_le.mpr h), if_neg (not_le.mpr (by exact mul_neg_of_pos_of_neg hk h))]
  unfold planeTest
  rw [hpv]
  have hval : (scalePlane k pl).at (positiveVertex pl b) = k * pl.at (positiveVertex pl b) := by
    unfold Plane.at scalePlane
    ring
  rw [hval]
  rcases le_or_lt 0 (pl.at (positiveVertex pl b)) with h | h
  · rw [decide_eq_true (by positivity), decide_eq_true h]
  · rw [decide_eq_false (not_le.mpr (by exact mul_neg_of_pos_of_neg hk h)),
      decide_eq_false (not_le.mpr h)]

/-- Column-major 4×4 matrix (models `glm::mat4`: `m[col][row]`). -/
structure Vec4 where
  x : ℚ
  y : ℚ
  z : ℚ
  w : ℚ
  deriving DecidableEq, Repr

/-- Matrix as four columns `c0..c3`; `m[j][r]` is component `r` of `cj`. -/
structure Mat4 where
  c0 : Vec4
  c1 : Vec4
  c2 : Vec4
  c3 : Vec4
  deriving DecidableEq, Repr

/-- Embeds the plane extraction of `Frustum::update` from a
view-projection matrix.  The source additionally divides each plane by the
Euclidean norm of its normal — a square root that is not rational; since
that norm is positive for the perspective matrices in question and
`planeTest_scale` shows a positive rescaling never changes a visibility
answer, the embedding keeps the raw extracted planes. -/
def Frustum.update (m : Mat4) : Frustum :=
  ⟨[⟨m.c0.w + m.c0.x, m.c1.w + m.c1.x, m.c2.w + m.c2.x, m.c3.w + m.c3.x⟩,
    ⟨m.c0.w - m.c0.x, m.c1.w - m.c1.x, m.c2.w - m.c2.x, m.c3.w - m.c3.x⟩,
    ⟨m.c0.w + m.c0.y, m.c1.w + m.c1.y, m.c2.w + m.c2.y, m.c3.w + m.c3.y⟩,
    ⟨m.c0.w - m.c0.y, m.c1.w - m.c1.y, m.c2.w - m.c2.y, m.c3.w - m.c3.y⟩,
    ⟨m.c0.w + m.c0.z, m.c1.w + m.c1.z, m.c2.w + m.c2.z, m.c3.w + m.c3.z⟩,
    ⟨m.c0.w - m.c0.z, m.c1.w - m.c1.z, m.c2.w - m.c2.z, m.c3.w - m.c3.z⟩]⟩

/-- Right-handed `glm::perspective` with `t = tan(fovy / 2)` passed as a
value (the matrix entries are rational in `t`): columns
`(1/(aspect t), 0, 0, 0)`, `(0, 1/t, 0, 0)`,
`(0, 0, -(f+n)/(f-n), -1)`, `(0, 0, -2fn/(f-n), 0)`. -/
def perspectiveT (t aspect n f : ℚ) : Mat4 :=
  ⟨⟨1 / (aspect * t), 0, 0, 0⟩,
   ⟨0, 1 / t, 0, 0⟩,
   ⟨0, 0, -(f + n) / (f - n), -1⟩,
   ⟨0, 0, -(2 * f * n) / (f - n), 0⟩⟩

/-- C6 (amended): (1) a box (with valid `min ≤ max` extents) lying
entirely on the negative side of one of the frustum planes is reported
not-visible; (2) a box containing a point with a nonnegative signed value
on every plane — a point inside the frustum — is reported visible.  (The
camera position itself lies strictly behind the extracted near plane of
its own perspective matrix, so containing the camera is *not* sufficient;
see the counterexample.) -/
theorem frustum_aabb_test (f : Frustum) (b : TerrainBounds)
    (hwf : b.min.x ≤ b.max.x ∧ b.min.y ≤ b.max.y ∧ b.min.z ≤ b.max.z) :
    ((∃ pl ∈ f.planes, ∀ v : Vec3, b.contains v → pl.at v < 0) →
      f.intersects b = false) ∧
    ((∃ v : Vec3, b.contains v ∧ ∀ pl ∈ f.planes, 0 ≤ pl.at v) →
      f.intersects b = true) := by
  obtain ⟨hx, hy, hz⟩ := hwf
  constructor
  · rintro ⟨pl, hpl, hneg⟩
    have hpv : b.contains (positiveVertex pl b) := by
      unfold TerrainBounds.contains positiveVertex
      refine ⟨?_, ?_, ?_, ?_, ?_, ?_⟩ <;> dsimp only <;> split <;>
        first | exact le_refl _ | assumption
    have : planeTest pl b = false := by
      unfold planeTest
      exact decide_eq_false (not_le.mpr (hneg _ hpv))
    unfold Frustum.intersects
    rw [List.all_eq_false]
    exact ⟨pl, hpl, by rw [this]; decide⟩
  · rintro ⟨v, hv, hall⟩
    unfold Frustum.intersects
    rw [List.all_eq_true]
    intro pl hpl
    unfold planeTest
    apply decide_eq_true
    obtain ⟨hv1, hv2, hv3, hv4, hv5, hv6⟩ := hv
    have hterm : pl.at v ≤ pl.at (positiveVertex pl b) := by
      unfold Plane.at positiveVertex
      dsimp only
      have hcx : pl.a * v.x ≤ pl.a * (if 0 ≤ pl.a then b.max.x else b.min.x) := by
        split
        · rename_i h; exact mul_le_mul_of_nonneg_left hv2 h
        · rename_i h; exact mul_le_mul_of_nonpos_left hv1 (le_of_lt (not_le.mp h))
      have hcy : pl.b * v.y ≤ pl.b * (if 0 ≤ pl.b then b.max.y else b.min.y) := by
        split
        · rename_i h; exact mul_le_mul_of_nonneg_left hv4 h
        · rename_i h; exact mul_le_mul_of_nonpos_left hv3 (le_of_lt (not_le.mp h))
      have hcz : pl.c * v.z ≤ pl.c * (if 0 ≤ pl.c then b.max.z else b.min.z) := by
        split
        · rename_i h; exact mul_le_mul_of_nonneg_left hv6 h
        · rename_i h; exact mul_le_mul_of_nonpos_left hv5 (le_of_lt (not_le.mp h))
      linarith
    exact le_trans (hall pl hpl) hterm

/-- C6 witness: a single plane `z ≥ 100` rejects the unit box at the
origin; a single plane `z ≥ 0` accepts it through its corner. -/
theorem frustum_aabb_test_witness :
    ((∃ pl ∈ (Frustum.mk [⟨0, 0, 1, -100⟩]).planes,
        ∀ v : Vec3, (TerrainBounds.mk ⟨0, 0, 0⟩ ⟨1, 1, 1⟩).contains v → pl.at v < 0) →
      (Frustum.mk [⟨0, 0, 1, -100⟩]).intersects (TerrainBounds.mk ⟨0, 0, 0⟩ ⟨1, 1, 1⟩) = false) ∧
    ((Frustum.mk [⟨0, 0, 1, -100⟩]).intersects (TerrainBounds.mk ⟨0, 0, 0⟩ ⟨1, 1, 1⟩) = false) ∧
    ((Frustum.mk [⟨0, 0, 1, 0⟩]).intersects (TerrainBounds.mk ⟨0, 0, 0⟩ ⟨1, 1, 1⟩) = true) := by
  refine ⟨(frustum_aabb_test _ _ (by norm_num)).1, ?_, ?_⟩
  · apply (frustum_aabb_test (Frustum.mk [⟨0, 0, 1, -100⟩])
      (TerrainBounds.mk ⟨0, 0, 0⟩ ⟨1, 1, 1⟩) (by norm_num)).1
    refine ⟨⟨0, 0, 1, -100⟩, by simp, ?_⟩
    intro v hv
    obtain ⟨_, _, _, _, _, h6⟩ := hv
    have h6' : v.z ≤ (1 : ℚ) := h6
    show (0 : ℚ) * v.x + 0 * v.y + 1 * v.z + -100 < 0
    linarith
  · apply (frustum_aabb_test (Frustum.mk [⟨0, 0, 1, 0⟩])
      (TerrainBounds.mk ⟨0, 0, 0⟩ ⟨1, 1, 1⟩) (by norm_num)).2
    refine ⟨⟨0, 0, 0⟩, by refine ⟨le_refl _, ?_, le_refl _, ?_, le_refl _, ?_⟩ <;> norm_num, ?_⟩
    intro pl hpl
    rw [List.mem_singleton] at hpl
    subst hpl
    show (0 : ℚ) ≤ 0 * 0 + 0 * 0 + 1 * 0 + 0
    norm_num

/-- C6 counterexample: the view-projection matrix of a camera at the
origin looking down `-z` (`glm::lookAt` view is the identity) with
`glm::perspective` at `tan(fovy/2) = 4/3`, `aspect = 1`, `near = 1`,
`far = 4`.  The box `[-1/10, 1/10]³` contains the camera position, yet the
extracted near plane `(0, 0, -8/3, -8/3)` already rejects it:
`intersects` returns false, refuting 'a box containing the camera is
visible'. -/
theorem frustum_aabb_test_cex :
    (TerrainBounds.mk ⟨-1/10, -1/10, -1/10⟩ ⟨1/10, 1/10, 1/10⟩).contains ⟨0, 0, 0⟩ ∧
    (Frustum.update (perspectiveT (4/3) 1 1 4)).intersects
      (TerrainBounds.mk ⟨-1/10, -1/10, -1/10⟩ ⟨1/10, 1/10, 1/10⟩) = false := by
  have hupd : Frustum.update (perspectiveT (4/3) 1 1 4)
      = ⟨[⟨3/4, 0, -1, 0⟩, ⟨-3/4, 0, -1, 0⟩, ⟨0, 3/4, -1, 0⟩, ⟨0, -3/4, -1, 0⟩,
          ⟨0, 0, -8/3, -8/3⟩, ⟨0, 0, 2/3, 8/3⟩]⟩ := by
    unfold Frustum.update perspectiveT
    norm_num
  constructor
  · unfold TerrainBounds.contains
    norm_num
  · rw [hupd]
    norm_num [Frustum.intersects, planeTest, positiveVertex, Plane.at]

/-! ## Candidate generation (`TerrainRenderer::performCulling`) -/

/-- C++ `static_cast<int>` of a float value: truncation toward zero. -/
def ctrunc (q : ℚ) : ℤ := if 0 ≤ q then ⌊q⌋ else ⌈q⌉

theorem ctrunc_mono {a b : ℚ} (h : a ≤ b) : ctrunc a ≤ ctrunc b := by
  unfold ctrunc
  rcases le_or_lt 0 a with ha | ha <;> rcases le_or_lt 0 b with hb | hb
  · rw [if_pos ha, if_pos hb]
    exact Int.floor_le_floor h
  · exact absurd (le_trans ha h) (not_le.mpr hb)
  · rw [if_neg (not_le.mpr ha), if_pos hb]
    exact le_trans (Int.ceil_le.mpr (by exact_mod_cast le_of_lt ha))
      (Int.floor_nonneg.mpr hb)
  · rw [if_neg (not_le.mpr ha), if_neg (not_le.mpr hb)]
    exact Int.ceil_le_ceil h

/-- Comparison `sqrt s > q` for a squared length `s ≥ 0`, without taking
the square root: true iff `q < 0` or `q² < s`.  Models the
`glm::length(...) > maxDistance` distance-culling test. -/
def sqrtGtQ (s q : ℚ) : Bool := decide (q < 0) || decide (q * q < s)

theorem sqrtGtQ_mono {s q1 q2 : ℚ} (hq : q1 ≤ q2) (h : sqrtGtQ s q1 = false) :
    sqrtGtQ s q2 = false := by
  unfold sqrtGtQ at h ⊢
  simp only [Bool.or_eq_false_iff, decide_eq_false_iff_not, not_lt] at h ⊢
  obtain ⟨h1, h2⟩ := h
  exact ⟨le_trans h1 hq, le_trans h2 (mul_self_le_mul_self h1 hq)⟩

/-- Squared Euclidean distance between two points. -/
def sqDistV (a b : Vec3) : ℚ :=
  (a.x - b.x) * (a.x - b.x) + (a.y - b.y) * (a.y - b.y) + (a.z - b.z) * (a.z - b.z)

/-- Embeds `TerrainRenderer::getTileBounds`: world cell of side
`1000 / 2^level` at grid position `(x, y)`, heights `[0, 200]`. -/
def getTileBounds (c : TileCoordinate) : TerrainBounds :=
  ⟨⟨c.x * (1000 / 2 ^ c.level), 0, c.y * (1000 / 2 ^ c.level)⟩,
   ⟨(c.x + 1) * (1000 / 2 ^ c.level), 200, (c.y + 1) * (1000 / 2 ^ c.level)⟩⟩

/-- Consecutive integers starting at `lo`. -/
def rangeZ (lo : ℤ) (n : ℕ) : List ℤ := (List.range n).map (fun i => lo + Int.ofNat i)

/-- The inclusive integer interval `[lo, hi]` (the C++ loop
`for (v = lo; v <= hi; ++v)`). -/
def intRange (lo hi : ℤ) : List ℤ := rangeZ lo (hi + 1 - lo).toNat

theorem rangeZ_add (lo : ℤ) (a b : ℕ) :
    rangeZ lo (a + b) = rangeZ lo a ++ rangeZ (lo + a) b := by
  unfold rangeZ
  rw [List.range_add, List.map_append, List.map_map]
  congr 1
  apply List.map_congr_left
  intro i _
  simp only [Function.comp_apply, Int.ofNat_eq_coe]
  push_cast
  ring

theorem rangeZ_sublist {lo1 lo2 : ℤ} {n1 n2 : ℕ}
    (h1 : lo2 ≤ lo1) (h2 : lo1 + n1 ≤ lo2 + n2) :
    (rangeZ lo1 n1).Sublist (rangeZ lo2 n2) := by
  have hd : lo2 + (lo1 - lo2).toNat = lo1 := by omega
  have hn : n2 = (lo1 - lo2).toNat + (n1 + (n2 - (lo1 - lo2).toNat - n1)) := by omega
  rw [hn, rangeZ_add, hd, rangeZ_add]
  exact ((List.sublist_append_left _ _).trans (List.sublist_append_right _ _))

theorem intRange_sublist {lo1 hi1 lo2 hi2 : ℤ}
    (hlo : lo2 ≤ lo1) (hhi : hi1 ≤ hi2) :
    (intRange lo1 hi1).Sublist (intRange lo2 hi2) := by
  unfold intRange
  by_cases hempty : hi1 + 1 - lo1 ≤ 0
  · rw [show (hi1 + 1 - lo1).toNat = 0 by omega]
    exact List.nil_sublist _
  · exact rangeZ_sublist hlo (by omega)

theorem sublist_filterMap_mono {α β : Type} {f g : α → Option β} {l1 l2 : List α}
    (hs : l1.Sublist l2) (h : ∀ a b, f a = some b → g a = some b) :
    (l1.filterMap f).Sublist (l2.filterMap g) := by
  induction hs with
  | slnil => exact List.nil_sublist _
  | cons a hs ih =>
    rw [List.filterMap_cons]
    cases hga : g a with
    | none => exact ih
    | some b => exact ih.trans (List.sublist_cons_self b _)
  | cons₂ a hs ih =>
    rw [List.filterMap_cons, List.filterMap_cons]
    cases hfa : f a with
    | none =>
      cases hga : g a with
      | none => exact ih
      | some b => exact ih.trans (List.sublist_cons_self b _)
    | some b =>
      rw [h a b hfa]
      exact ih.cons₂ b

theorem sublist_flatMap_mono {α β : Type} {f g : α → List β} {l1 l2 : List α}
    (hs : l1.Sublist l2) (h : ∀ a, (f a).Sublist (g a)) :
    (l1.flatMap f).Sublist (l2.flatMap g) := by
  induction hs with
  | slnil => exact List.nil_sublist _
  | cons a hs ih =>
    rw [List.flatMap_cons]
    exact ih.trans (List.sublist_append_right _ _)
  | cons₂ a hs ih =>
    rw [List.flatMap_cons, List.flatMap_cons]
    exact (h a).append ih

theorem takeWhile_mono_sublist {α : Type} {p q : α → Bool}
    (h : ∀ a, p a = true → q a = true) (l : List α) :
    (l.takeWhile p).Sublist (l.takeWhile q) := by
  induction l with
  | nil => exact List.nil_sublist _
  | cons a l ih =>
    rw [List.takeWhile_cons, List.takeWhile_cons]
    cases hp : p a with
    | false => simp
    | true =>
      rw [if_pos (h a hp), if_pos rfl]
      exact ih.cons₂ a

/-- Configuration fields read by `performCulling`
(`TerrainRenderConfig`). -/
structure CullConfig where
  nearDistance : ℚ
  farDistance : ℚ
  maxVisibleTiles : ℕ
  enableFrustumCulling : Bool
  deriving DecidableEq, Repr

/-- One LOD level of the candidate loop of `performCulling`: enumerate
grid cells of size `2000 / 2^level` within `cameraPos ± maxDistance`
(with the `static_cast<int>` and the `±1` margins of the source), then
frustum-cull (when enabled) and distance-cull against the tile bounds. -/
def levelCandidates (cfg : CullConfig) (fr : Frustum) (cam : Vec3)
    (maxD : ℚ) (ds : String) (level : ℕ) : List TileCoordinate :=
  (intRange (ctrunc ((cam.z - maxD) / (2000 / 2 ^ level)) - 1)
      (ctrunc ((cam.z + maxD) / (2000 / 2 ^ level)) + 1)).flatMap (fun y =>
    (intRange (ctrunc ((cam.x - maxD) / (2000 / 2 ^ level)) - 1)
        (ctrunc ((cam.x + maxD) / (2000 / 2 ^ level)) + 1)).filterMap (fun x =>
      if cfg.enableFrustumCulling && ! fr.intersects (getTileBounds ⟨x, y, level, ds⟩)
      then none
      else if sqrtGtQ (sqDistV cam (getTileBounds ⟨x, y, level, ds⟩).center) maxD
      then none
      else some ⟨x, y, level, ds⟩))

/-- The level loop of `performCulling` for a given `maxDistance`: LOD
levels `0..7`, stopping at the first level whose `levelDistance`
(`nearDistance * 2^level`) exceeds `maxDistance`. -/
def cullCandidatesAt (cfg : CullConfig) (fr : Frustum) (cam : Vec3)
    (maxD : ℚ) (ds : String) : List TileCoordinate :=
  ((List.range 8).takeWhile
      (fun level => decide (cfg.nearDistance * 2 ^ level ≤ maxD))).flatMap
    (levelCandidates cfg fr cam maxD ds)

/-- Embeds the candidate generation of `performCulling` (before the
distance sort and the `maxVisibleTiles` truncation):
`maxDistance = min(camera.farPlane, config.farDistance)`. -/
def performCullingCandidates (cfg : CullConfig) (fr : Frustum) (cam : Vec3)
    (farPlane : ℚ) (ds : String) : List TileCoordinate :=
  cullCandidatesAt cfg fr cam (min farPlane cfg.farDistance) ds

theorem levelCandidates_sublist (cfg : CullConfig) (fr : Frustum) (cam : Vec3)
    (ds : String) (level : ℕ) {maxD1 maxD2 : ℚ} (h : maxD1 ≤ maxD2) :
    (levelCandidates cfg fr cam maxD1 ds level).Sublist
      (levelCandidates cfg fr cam maxD2 ds level) := by
  unfold levelCandidates
  have hts : (0 : ℚ) < 2000 / 2 ^ level := by positivity
  have hminY : ctrunc ((cam.z - maxD2) / (2000 / 2 ^ level)) - 1
      ≤ ctrunc ((cam.z - maxD1) / (2000 / 2 ^ level)) - 1 := by
    have := ctrunc_mono ((div_le_div_iff_of_pos_right hts).mpr (by linarith :
      cam.z - maxD2 ≤ cam.z - maxD1))
    omega
  have hmaxY : ctrunc ((cam.z + maxD1) / (2000 / 2 ^ level)) + 1
      ≤ ctrunc ((cam.z + maxD2) / (2000 / 2 ^ level)) + 1 := by
    have := ctrunc_mono ((div_le_div_iff_of_pos_right hts).mpr (by linarith :
      cam.z + maxD1 ≤ cam.z + maxD2))
    omega
  have hminX : ctrunc ((cam.x - maxD2) / (2000 / 2 ^ level)) - 1
      ≤ ctrunc ((cam.x - maxD1) / (2000 / 2 ^ level)) - 1 := by
    have := ctrunc_mono ((div_le_div_iff_of_pos_right hts).mpr (by linarith :
      cam.x - maxD2 ≤ cam.x - maxD1))
    omega
  have hmaxX : ctrunc ((cam.x + maxD1) / (2000 / 2 ^ level)) + 1
      ≤ ctrunc ((cam.x + maxD2) / (2000 / 2 ^ level)) + 1 := by
    have := ctrunc_mono ((div_le_div_iff_of_pos_right hts).mpr (by linarith :
      cam.x + maxD1 ≤ cam.x + maxD2))
    omega
  apply sublist_flatMap_mono (intRange_sublist hminY hmaxY)
  intro y
  apply sublist_filterMap_mono (intRange_sublist hminX hmaxX)
  intro x c hx
  by_cases hcull : (cfg.enableFrustumCulling
      && ! fr.intersects (getTileBounds ⟨x, y, level, ds⟩)) = true
  · rw [if_pos hcull] at hx
    cases hx
  · rw [if_neg hcull] at hx
    rw [if_neg hcull]
    by_cases hdist : sqrtGtQ (sqDistV cam (getTileBounds ⟨x, y, level, ds⟩).center)
        maxD1 = true
    · rw [if_pos hdist] at hx
      cases hx
    · rw [if_neg hdist] at hx
      rw [if_neg (by
        rw [sqrtGtQ_mono h (Bool.eq_false_iff.mpr hdist)]
        exact Bool.false_ne_true)]
      exact hx

theorem cullCandidatesAt_mono (cfg : CullConfig) (fr : Frustum) (cam : Vec3)
    (ds : String) {maxD1 maxD2 : ℚ} (h : maxD1 ≤ maxD2) :
    (cullCandidatesAt cfg fr cam maxD1 ds).Sublist
      (cullCandidatesAt cfg fr cam maxD2 ds) := by
  unfold cullCandidatesAt
  apply sublist_flatMap_mono
  · apply takeWhile_mono_sublist
    intro level hl
    exact decide_eq_true (le_trans (of_decide_eq_true hl) h)
  · intro level
    exact levelCandidates_sublist cfg fr cam ds level h

theorem level0_eval (ds : String) (cfg : CullConfig) (fr : Frustum)
    (hfc : cfg.enableFrustumCulling = false) :
    levelCandidates cfg fr ⟨0, 0, 0⟩ 1000 ds 0
      = [⟨-1, -1, 0, ds⟩, ⟨0, -1, 0, ds⟩, ⟨-1, 0, 0, ds⟩, ⟨0, 0, 0, ds⟩] := by
  unfold levelCandidates
  norm_num [hfc, ctrunc, sqrtGtQ, sqDistV, getTileBounds, TerrainBounds.center]
  simp only [show ⌈(-(1 / 2) : ℚ)⌉ = 0 from by norm_num]
  rw [show intRange (0 - 1) 1 = [-1, 0, 1] from by decide]
  norm_num [List.flatMap_cons, List.flatMap_nil, List.filterMap_cons,
    List.filterMap_nil, List.append_nil, Function.comp]

theorem level0_coverage (ds : String) (cfg : CullConfig) (fr : Frustum)
    (hfc : cfg.enableFrustumCulling = false) (x y : ℤ) :
    ((⟨x, y, 0, ds⟩ : TileCoordinate) ∈ levelCandidates cfg fr ⟨0, 0, 0⟩ 1000 ds 0) ↔
    ((getTileBounds ⟨x, y, 0, ds⟩).min.x < 1000 ∧
     -1000 < (getTileBounds ⟨x, y, 0, ds⟩).max.x ∧
     (getTileBounds ⟨x, y, 0, ds⟩).min.z < 1000 ∧
     -1000 < (getTileBounds ⟨x, y, 0, ds⟩).max.z) := by
  rw [level0_eval ds cfg fr hfc]
  simp only [List.mem_cons, List.not_mem_nil, or_false, TileCoordinate.mk.injEq,
    and_true]
  unfold getTileBounds
  dsimp only
  norm_num
  constructor
  · rintro (⟨rfl, rfl⟩ | ⟨rfl, rfl⟩ | ⟨rfl, rfl⟩ | ⟨rfl, rfl⟩) <;> norm_num
  · rintro ⟨h1, h2, h3, h4⟩
    have hx1 : (x : ℚ) < 1 := by linarith
    have hx2 : (-2 : ℚ) < x := by linarith
    have hy1 : (y : ℚ) < 1 := by linarith
    have hy2 : (-2 : ℚ) < y := by linarith
    have hx1' : x < 1 := by exact_mod_cast hx1
    have hx2' : (-2 : ℤ) < x := by exact_mod_cast hx2
    have hy1' : y < 1 := by exact_mod_cast hy1
    have hy2' : (-2 : ℤ) < y := by exact_mod_cast hy2
    omega

theorem cullCandidatesAt_config (cfg1 cfg2 : CullConfig)
    (hn : cfg1.nearDistance = cfg2.nearDistance)
    (he : cfg1.enableFrustumCulling = cfg2.enableFrustumCulling)
    (fr : Frustum) (cam : Vec3) (maxD : ℚ) (ds : String) :
    cullCandidatesAt cfg1 fr cam maxD ds = cullCandidatesAt cfg2 fr cam maxD ds := by
  unfold cullCandidatesAt levelCandidates
  rw [hn, he]

/-- C8: with the camera at the origin and an effective view distance
(`maxDistance`) of 1000, the level-0 candidates are exactly the four grid
cells whose `getTileBounds` footprints meet the square `(-1000, 1000)²` —
the grid covering `[-1000, 1000]²`; and for any camera and configuration,
raising the far plane and the configured far distance (hence
`maxDistance = min` of the two) never decreases the number of candidates
produced before the `maxVisibleTiles` truncation.  (The frustum test is
disabled, matching the claim's focus on grid enumeration and distance
culling; the source ignores `config.tileSize` and uses a hard-coded
2000-unit level-0 enumeration cell with 1000-unit level-0 bounds.) -/
theorem culling_candidates_spec (ds : String) (cfg : CullConfig) (fr : Frustum)
    (hfc : cfg.enableFrustumCulling = false) :
    (levelCandidates cfg fr ⟨0, 0, 0⟩ 1000 ds 0
      = [⟨-1, -1, 0, ds⟩, ⟨0, -1, 0, ds⟩, ⟨-1, 0, 0, ds⟩, ⟨0, 0, 0, ds⟩]) ∧
    (∀ x y : ℤ,
      ((⟨x, y, 0, ds⟩ : TileCoordinate) ∈ levelCandidates cfg fr ⟨0, 0, 0⟩ 1000 ds 0) ↔
      ((getTileBounds ⟨x, y, 0, ds⟩).min.x < 1000 ∧
       -1000 < (getTileBounds ⟨x, y, 0, ds⟩).max.x ∧
       (getTileBounds ⟨x, y, 0, ds⟩).min.z < 1000 ∧
       -1000 < (getTileBounds ⟨x, y, 0, ds⟩).max.z)) ∧
    (∀ (cfg2 : CullConfig) (fr2 : Frustum) (cam : Vec3) (fp1 fp2 fd1 fd2 : ℚ),
      fp1 ≤ fp2 → fd1 ≤ fd2 →
      (performCullingCandidates { cfg2 with farDistance := fd1 } fr2 cam fp1 ds).length ≤
      (performCullingCandidates { cfg2 with farDistance := fd2 } fr2 cam fp2 ds).length) := by
  refine ⟨level0_eval ds cfg fr hfc, level0_coverage ds cfg fr hfc, ?_⟩
  intro cfg2 fr2 cam fp1 fp2 fd1 fd2 hfp hfd
  have e1 : performCullingCandidates { cfg2 with farDistance := fd1 } fr2 cam fp1 ds
      = cullCandidatesAt cfg2 fr2 cam (min fp1 fd1) ds := by
    unfold performCullingCandidates
    exact cullCandidatesAt_config _ _ rfl rfl fr2 cam _ ds
  have e2 : performCullingCandidates { cfg2 with farDistance := fd2 } fr2 cam fp2 ds
      = cullCandidatesAt cfg2 fr2 cam (min fp2 fd2) ds := by
    unfold performCullingCandidates
    exact cullCandidatesAt_config _ _ rfl rfl fr2 cam _ ds
  rw [e1, e2]
  exact (cullCandidatesAt_mono cfg2 fr2 cam ds (min_le_min hfp hfd)).length_le

/-- C8 witness: frustum culling disabled, near distance 100, far
distances 500 ≤ 1000, far planes 800 ≤ 2000. -/
theorem culling_candidates_spec_witness :
    (levelCandidates ⟨100, 1000, 256, false⟩ ⟨[]⟩ ⟨0, 0, 0⟩ 1000 "w" 0
      = [⟨-1, -1, 0, "w"⟩, ⟨0, -1, 0, "w"⟩, ⟨-1, 0, 0, "w"⟩, ⟨0, 0, 0, "w"⟩]) ∧
    (((⟨0, 0, 0, "w"⟩ : TileCoordinate) ∈
        levelCandidates ⟨100, 1000, 256, false⟩ ⟨[]⟩ ⟨0, 0, 0⟩ 1000 "w" 0) ↔
      ((getTileBounds ⟨0, 0, 0, "w"⟩).min.x < 1000 ∧
       -1000 < (getTileBounds ⟨0, 0, 0, "w"⟩).max.x ∧
       (getTileBounds ⟨0, 0, 0, "w"⟩).min.z < 1000 ∧
       -1000 < (getTileBounds ⟨0, 0, 0, "w"⟩).max.z)) ∧
    ((performCullingCandidates { (⟨100, 1000, 256, false⟩ : CullConfig) with
        farDistance := (500 : ℚ) } ⟨[]⟩ ⟨0, 0, 0⟩ 800 "w").length ≤
      (performCullingCandidates { (⟨100, 1000, 256, false⟩ : CullConfig) with
        farDistance := (1000 : ℚ) } ⟨[]⟩ ⟨0, 0, 0⟩ 2000 "w").length) :=
  ⟨(culling_candidates_spec "w" ⟨100, 1000, 256, false⟩ ⟨[]⟩ (by decide)).1,
   (culling_candidates_spec "w" ⟨100, 1000, 256, false⟩ ⟨[]⟩ (by decide)).2.1 0 0,
   (culling_candidates_spec "w" ⟨100, 1000, 256, false⟩ ⟨[]⟩ (by decide)).2.2
     ⟨100, 1000, 256, false⟩ ⟨[]⟩ ⟨0, 0, 0⟩ 800 2000 500 1000 (by norm_num) (by norm_num)⟩

end VF
